import Mathlib

/-!
Verification of the JSON material-map converter (`JsonGeometryConverter`).

The repository provides the class declaration in
`Plugins/Json/include/Acts/Plugins/Json/JsonGeometryConverter.hpp`; the
structures `LayerRep`, `VolumeRep`, `DetectorRep` and `Config` (with their
member bodies and default values) are embedded from that header.  The bodies
of the conversion member functions (`materialMapsToJson`,
`jsonToMaterialMaps`, `jsonToSurfaceMaterial`, `jsonToMaterialMatrix`,
`jsonToBinUtility`, `detectorRepToJson`, `surfaceMaterialToJson`) are not
part of the source tree; they are modelled from the specification, as noted
on each definition.
-/

namespace Acts

/-! ## JSON documents

In-memory model of the wire format: a JSON value whose objects are
insertion-ordered lists of string-keyed fields.  Numbers are carried as
rationals; the converter performs no arithmetic on them, it only stores and
reloads them. -/

inductive Json where
  | str (s : String)
  | num (q : ℚ)
  | arr (elems : List Json)
  | obj (fields : List (String × Json))

/-- Field lookup in a JSON object: first binding of the key wins. -/
def jlookup (k : String) : List (String × Json) → Option Json
  | [] => none
  | (k', v) :: fs => if k' = k then some v else jlookup k fs

theorem jlookup_cons_eq (k : String) (v : Json) (fs : List (String × Json)) :
    jlookup k ((k, v) :: fs) = some v := by
  simp [jlookup]

theorem jlookup_cons_ne {k k' : String} (h : k' ≠ k) (v : Json)
    (fs : List (String × Json)) : jlookup k ((k', v) :: fs) = jlookup k fs := by
  simp [jlookup, h]

/-! ## Decimal keys

Mapping keys in the document are the decimal string form of geometry id
values.  We model the printer and the parser explicitly so that decode can
be proved to invert encode. -/

/-- The character for one decimal digit. -/
def digitChar (d : ℕ) : Char :=
  match d with
  | 0 => '0' | 1 => '1' | 2 => '2' | 3 => '3' | 4 => '4'
  | 5 => '5' | 6 => '6' | 7 => '7' | 8 => '8' | 9 => '9'
  | _ => '?'

/-- The value of one decimal digit character; `10` marks a non-digit. -/
def charDigit (c : Char) : ℕ :=
  match c with
  | '0' => 0 | '1' => 1 | '2' => 2 | '3' => 3 | '4' => 4
  | '5' => 5 | '6' => 6 | '7' => 7 | '8' => 8 | '9' => 9
  | _ => 10

theorem charDigit_digitChar {d : ℕ} (h : d < 10) : charDigit (digitChar d) = d := by
  interval_cases d <;> rfl

theorem charDigit_digitChar_lt {d : ℕ} (h : d < 10) : charDigit (digitChar d) < 10 := by
  rw [charDigit_digitChar h]; exact h

/-- Little-endian decimal digits of `n`, with explicit fuel so that the
recursion is structural (the fuel `n` itself always suffices). -/
def decDigits : ℕ → ℕ → List ℕ
  | _, 0 => []
  | 0, _ + 1 => []
  | f + 1, n + 1 => (n + 1) % 10 :: decDigits f ((n + 1) / 10)

/-- The value of a little-endian decimal digit list. -/
def digitsVal (ds : List ℕ) : ℕ := ds.foldr (fun d acc => d + 10 * acc) 0

theorem digitsVal_decDigits : ∀ (f n : ℕ), n ≤ f → digitsVal (decDigits f n) = n := by
  intro f
  induction f with
  | zero => intro n hn; interval_cases n; rfl
  | succ f ih =>
    intro n hn
    match n with
    | 0 => rfl
    | n + 1 =>
      have hdiv : (n + 1) / 10 ≤ f := by
        have := Nat.div_le_self (n + 1) 10
        have hlt : (n + 1) / 10 < n + 1 := Nat.div_lt_self (Nat.succ_pos n) (by omega)
        omega
      simp only [decDigits, digitsVal, List.foldr]
      have := ih ((n + 1) / 10) hdiv
      simp only [digitsVal] at this
      rw [this]
      omega

theorem decDigits_lt_ten : ∀ (f n : ℕ), ∀ d ∈ decDigits f n, d < 10 := by
  intro f
  induction f with
  | zero => intro n d hd; cases n <;> simp [decDigits] at hd
  | succ f ih =>
    intro n d hd
    match n with
    | 0 => simp [decDigits] at hd
    | n + 1 =>
      simp only [decDigits, List.mem_cons] at hd
      rcases hd with h | h
      · subst h; exact Nat.mod_lt _ (by omega)
      · exact ih _ _ h

theorem decDigits_ne_nil (f n : ℕ) (hn : 0 < n) (hf : n ≤ f) : decDigits f n ≠ [] := by
  match f, n with
  | _, 0 => omega
  | 0, _ + 1 => omega
  | f + 1, n + 1 => simp [decDigits]

/-- Decimal string of a natural number, as the list of characters. -/
def keyCharsOfNat (n : ℕ) : List Char :=
  if n = 0 then ['0'] else ((decDigits n n).map digitChar).reverse

/-- Parse a decimal character list; `none` unless nonempty and all digits. -/
def natOfKeyChars (cs : List Char) : Option ℕ :=
  if cs ≠ [] ∧ ∀ c ∈ cs, charDigit c < 10 then
    some (digitsVal ((cs.map charDigit).reverse))
  else none

/-- Decimal string key of a geometry id value. -/
def natToKey (n : ℕ) : String := ⟨keyCharsOfNat n⟩

/-- Parse a decimal string key back to a geometry id value. -/
def keyToNat (s : String) : Option ℕ := natOfKeyChars s.data

theorem natOfKeyChars_keyCharsOfNat (n : ℕ) :
    natOfKeyChars (keyCharsOfNat n) = some n := by
  by_cases h0 : n = 0
  · subst h0; rfl
  · have hne : decDigits n n ≠ [] := decDigits_ne_nil n n (Nat.pos_of_ne_zero h0) le_rfl
    have hlt : ∀ d ∈ decDigits n n, d < 10 := decDigits_lt_ten n n
    unfold keyCharsOfNat natOfKeyChars
    rw [if_neg h0]
    have hcs : (((decDigits n n).map digitChar).reverse ≠ [] ∧
        ∀ c ∈ ((decDigits n n).map digitChar).reverse, charDigit c < 10) := by
      constructor
      · simp [hne]
      · intro c hc
        simp only [List.mem_reverse, List.mem_map] at hc
        obtain ⟨d, hd, rfl⟩ := hc
        exact charDigit_digitChar_lt (hlt d hd)
    rw [if_pos hcs]
    congr 1
    have : ((((decDigits n n).map digitChar).reverse.map charDigit).reverse
        = decDigits n n) := by
      rw [← List.map_reverse, List.reverse_reverse, List.map_map]
      have : ∀ d ∈ decDigits n n, (charDigit ∘ digitChar) d = id d := by
        intro d hd; simp [Function.comp, charDigit_digitChar (hlt d hd)]
      rw [List.map_congr_left this, List.map_id]
    rw [this, digitsVal_decDigits n n le_rfl]

theorem keyToNat_natToKey (n : ℕ) : keyToNat (natToKey n) = some n :=
  natOfKeyChars_keyCharsOfNat n

theorem natToKey_injective : Function.Injective natToKey := by
  intro a b hab
  have ha := keyToNat_natToKey a
  have hb := keyToNat_natToKey b
  rw [hab, hb] at ha
  exact (Option.some_injective _ ha).symm

/-! ## Data model

Modelled from the spec: the material descriptor variants (§3) of the missing
implementation sources.  Each cell holds `(thickness, X0, L0, A, Z, rho)`;
the converter performs no unit conversion, so the values are carried as
exact rationals. -/

/-- One material cell: `(thickness, X0, L0, A, Z, rho)`. -/
structure MaterialCell where
  thickness : ℚ
  x0 : ℚ
  l0 : ℚ
  a : ℚ
  z : ℚ
  rho : ℚ
deriving DecidableEq

/-- Modelled from the spec: bin axis descriptor — strategy tag, bin count,
and bounds (min/max for equidistant, explicit boundary list otherwise). -/
inductive BinAxis where
  | equidistant (bins : ℕ) (lo hi : ℚ)
  | arbitrary (boundaries : List ℚ)
deriving DecidableEq

/-- Bin count of an axis (one fewer than the boundary count for an explicit
boundary list). -/
def BinAxis.binsCount : BinAxis → ℕ
  | .equidistant n _ _ => n
  | .arbitrary bs => bs.length - 1

/-- Modelled from the spec: tagged material descriptor variant —
placeholder / single cell / 1-D grid / 2-D grid. -/
inductive MaterialDesc where
  | proto
  | homogeneous (cell : MaterialCell)
  | binned1 (b0 : BinAxis) (cells : List MaterialCell)
  | binned2 (b0 b1 : BinAxis) (rows : List (List MaterialCell))
deriving DecidableEq

/-- Modelled from the spec: the 64-bit composite `GeometryID`, treated as a
record of its packed fields (volume, boundary, layer, approach, sensitive);
the bit-packing contract is owned by the external geometry model. -/
structure GeometryID where
  vol : ℕ
  bou : ℕ
  lay : ℕ
  app : ℕ
  sen : ℕ
deriving DecidableEq

/-- Modelled from the spec: the packed 64-bit value of a `GeometryID` under
the external packing contract (volume in the highest field, then boundary,
layer, approach, and the sensitive index in the low bits). -/
def GeometryID.value (g : GeometryID) : ℕ :=
  g.vol * 2 ^ 56 + g.bou * 2 ^ 48 + g.lay * 2 ^ 40 + g.app * 2 ^ 32 + g.sen

/-- Modelled from the spec: decode failure kinds (§7). -/
inductive ConvErr where
  | malformedInput
  | unsupportedBinType
  | geometryIdCollision
deriving DecidableEq

/-! ## Configuration

Embedded from the source header (`JsonGeometryConverter::Config`): the JSON
field-name strings, the processing toggles and their default values.  The
logging members are omitted (diagnostics are outside correctness). -/

structure Config where
  geoversion : String := "undefined"
  detkey : String := "detector"
  volkey : String := "volumes"
  namekey : String := "name"
  boukey : String := "boundaries"
  laykey : String := "layers"
  matkey : String := "material"
  appkey : String := "approach"
  senkey : String := "sensitive"
  repkey : String := "representing"
  bin0key : String := "bin0"
  bin1key : String := "bin1"
  typekey : String := "type"
  datakey : String := "data"
  geoidkey : String := "geoid"
  name : String := ""
  processSensitives : Bool := true
  processApproaches : Bool := true
  processRepresenting : Bool := true
  processBoundaries : Bool := true
  processVolumes : Bool := true
  writeData : Bool := true

/-- A default-constructed configuration. -/
def defaultConfig : Config := {}

/-! The conversion functions below are modelled with the default key
strings; the following abbreviations name them once. -/

def detkey : String := "detector"
def volkey : String := "volumes"
def namekey : String := "name"
def boukey : String := "boundaries"
def laykey : String := "layers"
def matkey : String := "material"
def appkey : String := "approach"
def senkey : String := "sensitive"
def repkey : String := "representing"
def bin0key : String := "bin0"
def bin1key : String := "bin1"
def typekey : String := "type"
def datakey : String := "data"

/-! ## Material grid codec -/

/-- Sequence a list of fallible reads, failing on the first error. -/
def mapExcept {α β : Type} (f : α → Except ConvErr β) : List α → Except ConvErr (List β)
  | [] => .ok []
  | x :: xs =>
    match f x, mapExcept f xs with
    | .ok y, .ok ys => .ok (y :: ys)
    | .error e, _ => .error e
    | .ok _, .error e => .error e

/-- Natural number written as a JSON number. -/
def natToJson (n : ℕ) : Json := .num n

/-- Read a JSON number back as a natural number. -/
def jsonToNat? : Json → Option ℕ
  | .num q => if q.den = 1 ∧ 0 ≤ q.num then some q.num.toNat else none
  | _ => none

theorem jsonToNat?_natToJson (n : ℕ) : jsonToNat? (natToJson n) = some n := by
  simp [natToJson, jsonToNat?, Rat.den_natCast, Rat.num_natCast]

/-- One cell as a JSON row `(thickness, X0, L0, A, Z, rho)`. -/
def cellToJson (c : MaterialCell) : Json :=
  .arr [.num c.thickness, .num c.x0, .num c.l0, .num c.a, .num c.z, .num c.rho]

/-- Read one cell row. -/
def jsonToCell : Json → Except ConvErr MaterialCell
  | .arr [.num t, .num x0, .num l0, .num a, .num z, .num rho] =>
      .ok ⟨t, x0, l0, a, z, rho⟩
  | _ => .error .malformedInput

theorem jsonToCell_cellToJson (c : MaterialCell) :
    jsonToCell (cellToJson c) = .ok c := rfl

/-- Encode one bin axis descriptor. -/
def binUtilityToJson : BinAxis → Json
  | .equidistant n lo hi => .arr [.str "equidistant", natToJson n, .num lo, .num hi]
  | .arbitrary bs => .arr [.str "arbitrary", .arr (bs.map Json.num)]

/-- Read a JSON number back as a rational. -/
def jsonToRat : Json → Except ConvErr ℚ
  | .num q => .ok q
  | _ => .error .malformedInput

/-- Modelled from the spec: `jsonToBinUtility` (missing member body) — read
one bin-axis descriptor; an unknown strategy tag fails with
`UnsupportedBinType`, any other shape violation with `MalformedInput`. -/
def jsonToBinUtility : Json → Except ConvErr BinAxis
  | .arr [.str "equidistant", bj, .num lo, .num hi] =>
      match jsonToNat? bj with
      | some n => .ok (.equidistant n lo hi)
      | none => .error .malformedInput
  | .arr [.str "arbitrary", .arr bjs] =>
      (mapExcept jsonToRat bjs).map .arbitrary
  | .arr (.str "equidistant" :: _) => .error .malformedInput
  | .arr (.str "arbitrary" :: _) => .error .malformedInput
  | .arr (.str _ :: _) => .error .unsupportedBinType
  | _ => .error .malformedInput

theorem mapExcept_jsonToRat (bs : List ℚ) :
    mapExcept jsonToRat (bs.map Json.num) = .ok bs := by
  induction bs with
  | nil => rfl
  | cons b bs ih => simp [mapExcept, jsonToRat, ih]

theorem jsonToBinUtility_binUtilityToJson (b : BinAxis) :
    jsonToBinUtility (binUtilityToJson b) = .ok b := by
  cases b with
  | equidistant n lo hi =>
      simp [binUtilityToJson, jsonToBinUtility, jsonToNat?_natToJson]
  | arbitrary bs =>
      simp [binUtilityToJson, jsonToBinUtility, mapExcept_jsonToRat]; rfl

/-- One matrix of cells as the JSON data array (outer list: rows). -/
def matrixToJson (m : List (List MaterialCell)) : Json :=
  .arr (m.map (fun row => .arr (row.map cellToJson)))

/-- Read one row of the data array. -/
def jsonToRow : Json → Except ConvErr (List MaterialCell)
  | .arr cs => mapExcept jsonToCell cs
  | _ => .error .malformedInput

/-- Modelled from the spec: `jsonToMaterialMatrix` (missing member body) —
read the data array into a matrix of cells. -/
def jsonToMaterialMatrix : Json → Except ConvErr (List (List MaterialCell))
  | .arr rows => mapExcept jsonToRow rows
  | _ => .error .malformedInput

theorem jsonToRow_row (row : List MaterialCell) :
    jsonToRow (.arr (row.map cellToJson)) = .ok row := by
  simp only [jsonToRow]
  induction row with
  | nil => rfl
  | cons c cs ih => simp [mapExcept, jsonToCell_cellToJson, ih]

theorem jsonToMaterialMatrix_matrixToJson (m : List (List MaterialCell)) :
    jsonToMaterialMatrix (matrixToJson m) = .ok m := by
  simp only [matrixToJson, jsonToMaterialMatrix]
  induction m with
  | nil => rfl
  | cons row rows ih => simp [mapExcept, jsonToRow_row, ih]

/-! ## Material entry codec -/

/-- An optional JSON object field. -/
def optField (k : String) (o : Option Json) : List (String × Json) :=
  match o with
  | some j => [(k, j)]
  | none => []

/-- The JSON object fields of a `"data"` material entry: the `type`
discriminator, one bin-axis descriptor per active dimension, and the data
array. -/
def dataPayloadFields (b0? b1? : Option BinAxis) (m : List (List MaterialCell)) :
    List (String × Json) :=
  [(typekey, .str "data")] ++ optField bin0key (b0?.map binUtilityToJson) ++
    optField bin1key (b1?.map binUtilityToJson) ++ [(datakey, matrixToJson m)]

/-- A `"data"` material entry. -/
def dataPayload (b0? b1? : Option BinAxis) (m : List (List MaterialCell)) : Json :=
  .obj (dataPayloadFields b0? b1? m)

/-- Modelled from the spec: `surfaceMaterialToJson` (missing member body) —
classify the descriptor's tag, emit the `type` discriminator (`"proto"` or
`"data"`), one bin-axis descriptor per active dimension, and the flat array
of per-cell property rows (§4.2). -/
def surfaceMaterialToJson : MaterialDesc → Json
  | .proto => .obj [(typekey, .str "proto")]
  | .homogeneous c => dataPayload none none [[c]]
  | .binned1 b0 cells => dataPayload (some b0) none [cells]
  | .binned2 b0 b1 rows => dataPayload (some b0) (some b1) rows

/-- Read an optional bin-axis descriptor field. -/
def readAxis (k : String) (fs : List (String × Json)) : Except ConvErr (Option BinAxis) :=
  match jlookup k fs with
  | some bj => (jsonToBinUtility bj).map some
  | none => .ok none

/-- Read the mandatory data array of a `"data"` entry. -/
def readData (fs : List (String × Json)) : Except ConvErr (List (List MaterialCell)) :=
  match jlookup datakey fs with
  | some dj => jsonToMaterialMatrix dj
  | none => .error .malformedInput

/-- The number of matrix rows implied by the optional second axis. -/
def rowsOf (b1? : Option BinAxis) : ℕ :=
  match b1? with
  | some b1 => b1.binsCount
  | none => 1

/-- The number of matrix columns implied by the optional first axis. -/
def colsOf (b0? : Option BinAxis) : ℕ :=
  match b0? with
  | some b0 => b0.binsCount
  | none => 1

/-- Modelled from the spec: construct the final descriptor from the matrix
and the axis metadata — homogeneous if rows = cols = 1, else binned; fails
with `MalformedInput` if the matrix's dimensions do not equal the implied
rows × cols (§4.2). -/
def buildDesc (b0? b1? : Option BinAxis) (data : List (List MaterialCell)) :
    Except ConvErr MaterialDesc :=
  if data.length = rowsOf b1? ∧ ∀ r ∈ data, r.length = colsOf b0? then
    if rowsOf b1? = 1 ∧ colsOf b0? = 1 then
      match data with
      | [[c]] => .ok (.homogeneous c)
      | _ => .error .malformedInput
    else
      match b0?, b1? with
      | some b0, some b1 => .ok (.binned2 b0 b1 data)
      | some b0, none => .ok (.binned1 b0 data.flatten)
      | none, some b1 => .ok (.binned1 b1 data.flatten)
      | none, none => .error .malformedInput
  else .error .malformedInput

/-- Modelled from the spec: decode the payload of a `"data"` entry — read
the axis descriptors, read the data array into a matrix of the implied
shape, and construct the final descriptor (§4.2). -/
def jsonToSurfaceMaterialData (fs : List (String × Json)) : Except ConvErr MaterialDesc :=
  match readAxis bin0key fs, readAxis bin1key fs, readData fs with
  | .ok b0?, .ok b1?, .ok data => buildDesc b0? b1? data
  | .error e, _, _ => .error e
  | .ok _, .error e, _ => .error e
  | .ok _, .ok _, .error e => .error e

/-- Modelled from the spec: `jsonToSurfaceMaterial` (missing member body) —
read `type`; `"proto"` produces the placeholder, `"data"` decodes the
payload, a present but unrecognized tag fails with `MalformedInput`;
entries with neither `type` nor `data` are structural and are skipped
(`none`) (§4.2, §4.4). -/
def jsonToSurfaceMaterial (material : Json) : Except ConvErr (Option MaterialDesc) :=
  match material with
  | .obj fs =>
    match jlookup typekey fs with
    | some (.str "proto") => .ok (some .proto)
    | some (.str "data") => (jsonToSurfaceMaterialData fs).map some
    | some _ => .error .malformedInput
    | none =>
      match jlookup datakey fs with
      | some _ => (jsonToSurfaceMaterialData fs).map some
      | none => .ok none
  | _ => .error .malformedInput

/-- Well-formedness of a descriptor: the grid dimensions agree with the bin
axes, and a binned grid does not occupy a single total bin (a single-cell
grid decodes as homogeneous, so it cannot survive a round trip as binned). -/
def MaterialDesc.wfb : MaterialDesc → Bool
  | .proto => true
  | .homogeneous _ => true
  | .binned1 b0 cells => cells.length == b0.binsCount && cells.length != 1
  | .binned2 b0 b1 rows =>
      rows.length == b1.binsCount && rows.all (fun r => r.length == b0.binsCount) &&
        !(b1.binsCount == 1 && b0.binsCount == 1)

theorem jlookup_dataPayloadFields_type (b0? b1? : Option BinAxis)
    (m : List (List MaterialCell)) :
    jlookup typekey (dataPayloadFields b0? b1? m) = some (.str "data") := by
  simp [dataPayloadFields, jlookup_cons_eq]

theorem jlookup_dataPayloadFields_bin0 (b0? b1? : Option BinAxis)
    (m : List (List MaterialCell)) :
    jlookup bin0key (dataPayloadFields b0? b1? m) = b0?.map binUtilityToJson := by
  cases b0? <;> cases b1? <;>
    simp [dataPayloadFields, optField, jlookup, typekey, bin0key, bin1key, datakey]

theorem jlookup_dataPayloadFields_bin1 (b0? b1? : Option BinAxis)
    (m : List (List MaterialCell)) :
    jlookup bin1key (dataPayloadFields b0? b1? m) = b1?.map binUtilityToJson := by
  cases b0? <;> cases b1? <;>
    simp [dataPayloadFields, optField, jlookup, typekey, bin0key, bin1key, datakey]

theorem jlookup_dataPayloadFields_data (b0? b1? : Option BinAxis)
    (m : List (List MaterialCell)) :
    jlookup datakey (dataPayloadFields b0? b1? m) = some (matrixToJson m) := by
  cases b0? <;> cases b1? <;>
    simp [dataPayloadFields, optField, jlookup, typekey, bin0key, bin1key, datakey]

theorem readAxis_dataPayloadFields_bin0 (b0? b1? : Option BinAxis)
    (m : List (List MaterialCell)) :
    readAxis bin0key (dataPayloadFields b0? b1? m) = .ok b0? := by
  rw [readAxis, jlookup_dataPayloadFields_bin0]
  cases b0? with
  | none => rfl
  | some b0 => simp [jsonToBinUtility_binUtilityToJson]; rfl

theorem readAxis_dataPayloadFields_bin1 (b0? b1? : Option BinAxis)
    (m : List (List MaterialCell)) :
    readAxis bin1key (dataPayloadFields b0? b1? m) = .ok b1? := by
  rw [readAxis, jlookup_dataPayloadFields_bin1]
  cases b1? with
  | none => rfl
  | some b1 => simp [jsonToBinUtility_binUtilityToJson]; rfl

theorem readData_dataPayloadFields (b0? b1? : Option BinAxis)
    (m : List (List MaterialCell)) :
    readData (dataPayloadFields b0? b1? m) = .ok m := by
  rw [readData, jlookup_dataPayloadFields_data]
  exact jsonToMaterialMatrix_matrixToJson m

theorem jsonToSurfaceMaterial_dataPayload (b0? b1? : Option BinAxis)
    (m : List (List MaterialCell)) :
    jsonToSurfaceMaterial (dataPayload b0? b1? m) =
      (buildDesc b0? b1? m).map some := by
  rw [dataPayload, jsonToSurfaceMaterial, jlookup_dataPayloadFields_type,
    jsonToSurfaceMaterialData, readAxis_dataPayloadFields_bin0,
    readAxis_dataPayloadFields_bin1, readData_dataPayloadFields]
  rfl

theorem buildDesc_shaped (b0? b1? : Option BinAxis) (m : List (List MaterialCell))
    (hshape : m.length = rowsOf b1? ∧ ∀ r ∈ m, r.length = colsOf b0?) :
    (rowsOf b1? = 1 ∧ colsOf b0? = 1 → ∃ c, m = [[c]] ∧
        buildDesc b0? b1? m = .ok (.homogeneous c)) ∧
      (¬(rowsOf b1? = 1 ∧ colsOf b0? = 1) →
        buildDesc b0? b1? m =
          match b0?, b1? with
          | some b0, some b1 => .ok (.binned2 b0 b1 m)
          | some b0, none => .ok (.binned1 b0 m.flatten)
          | none, some b1 => .ok (.binned1 b1 m.flatten)
          | none, none => .ok .proto) := by
  constructor
  · intro h11
    obtain ⟨hr, hc⟩ := hshape
    rw [h11.1] at hr
    obtain ⟨row, rfl⟩ := List.length_eq_one.mp hr
    have hrow : row.length = colsOf b0? := hc row (by simp)
    rw [h11.2] at hrow
    obtain ⟨c, rfl⟩ := List.length_eq_one.mp hrow
    refine ⟨c, rfl, ?_⟩
    have hshape' : ([[c]] : List (List MaterialCell)).length = rowsOf b1? ∧
        ∀ r ∈ [[c]], r.length = colsOf b0? := by
      constructor
      · simp [h11.1]
      · intro r hr'; simp at hr'; simp [hr', h11.2]
    unfold buildDesc
    rw [if_pos hshape', if_pos h11]
  · intro h11
    have : ¬(b0? = none ∧ b1? = none) := by
      rintro ⟨rfl, rfl⟩
      exact h11 ⟨rfl, rfl⟩
    unfold buildDesc
    rw [if_pos hshape, if_neg h11]
    match b0?, b1? with
    | some b0, some b1 => rfl
    | some b0, none => rfl
    | none, some b1 => rfl
    | none, none => exact absurd ⟨rfl, rfl⟩ this

theorem buildDesc_misshaped (b0? b1? : Option BinAxis) (m : List (List MaterialCell))
    (hshape : ¬(m.length = rowsOf b1? ∧ ∀ r ∈ m, r.length = colsOf b0?)) :
    buildDesc b0? b1? m = .error .malformedInput := by
  unfold buildDesc
  rw [if_neg hshape]

/-- Codec round trip for one well-formed descriptor. -/
theorem jsonToSurfaceMaterial_surfaceMaterialToJson (d : MaterialDesc)
    (hwf : d.wfb = true) :
    jsonToSurfaceMaterial (surfaceMaterialToJson d) = .ok (some d) := by
  cases d with
  | proto => rfl
  | homogeneous c =>
    rw [surfaceMaterialToJson, jsonToSurfaceMaterial_dataPayload]
    have hshape : ([[c]] : List (List MaterialCell)).length = rowsOf none ∧
        ∀ r ∈ [[c]], r.length = colsOf (none : Option BinAxis) := by
      simp [rowsOf, colsOf]
    obtain ⟨c', hm, hb⟩ := (buildDesc_shaped none none [[c]] hshape).1 ⟨rfl, rfl⟩
    obtain rfl : c = c' := by simpa using hm
    rw [hb]; rfl
  | binned1 b0 cells =>
    simp only [MaterialDesc.wfb, Bool.and_eq_true, beq_iff_eq, bne_iff_ne,
      ne_eq] at hwf
    rw [surfaceMaterialToJson, jsonToSurfaceMaterial_dataPayload]
    have hshape : ([cells] : List (List MaterialCell)).length = rowsOf none ∧
        ∀ r ∈ [cells], r.length = colsOf (some b0) := by
      simp [rowsOf, colsOf, hwf.1]
    have h11 : ¬(rowsOf (none : Option BinAxis) = 1 ∧ colsOf (some b0) = 1) := by
      simp only [rowsOf, colsOf, not_and]
      intro _ hc
      exact hwf.2 (hwf.1.trans hc)
    have := (buildDesc_shaped (some b0) none [cells] hshape).2 h11
    rw [this]; simp [Except.map]
  | binned2 b0 b1 rows =>
    simp only [MaterialDesc.wfb, Bool.and_eq_true, beq_iff_eq, List.all_eq_true,
      Bool.not_eq_true', Bool.and_eq_false_iff] at hwf
    rw [surfaceMaterialToJson, jsonToSurfaceMaterial_dataPayload]
    have hshape : rows.length = rowsOf (some b1) ∧
        ∀ r ∈ rows, r.length = colsOf (some b0) := by
      refine ⟨hwf.1.1, fun r hr => ?_⟩
      simpa using hwf.1.2 r hr
    have h11 : ¬(rowsOf (some b1) = 1 ∧ colsOf (some b0) = 1) := by
      simp only [rowsOf, colsOf]
      rintro ⟨h1, h0⟩
      rcases hwf.2 with h | h
      · exact absurd h1 (by simpa using h)
      · exact absurd h0 (by simpa using h)
    have := (buildDesc_shaped (some b0) (some b1) rows hshape).2 h11
    rw [this]; rfl

/-! ## Rep tree

Embedded from the source header: `LayerRep`, `VolumeRep` and `DetectorRep`
with their "worth writing out" predicates (`operator bool`).  The C++
`std::map` members are modelled as association lists ordered by key; the
non-owning material pointers become the owned descriptor values they refer
to (`nullptr` becomes `none`). -/

/-- Map from a local id value to a surface material reference
(`SurfaceMaterialRep`). -/
abbrev SurfaceMaterialRep := List (ℕ × MaterialDesc)

/-- `LayerRep`: layer id, sensitive-surface map, approach-surface map and
the optional representing-surface material. -/
structure LayerRep where
  layerID : ℕ := 0
  sensitives : SurfaceMaterialRep := []
  approaches : SurfaceMaterialRep := []
  representing : Option MaterialDesc := none

/-- `LayerRep::operator bool` (header lines 60-64): the `LayerRep` is
actually worth writing out. -/
def LayerRep.worth (l : LayerRep) : Bool :=
  l.sensitives.length != 0 || l.approaches.length != 0 || l.representing.isSome

/-- `VolumeRep`: volume id and name, layer map, boundary-surface map and
the optional volume material. -/
structure VolumeRep where
  volumeID : ℕ := 0
  volumeName : String := ""
  layers : List (ℕ × LayerRep) := []
  boundaries : SurfaceMaterialRep := []
  material : Option MaterialDesc := none

/-- `VolumeRep::operator bool` (header lines 81-85): the `VolumeRep` is
actually worth writing out. -/
def VolumeRep.worth (v : VolumeRep) : Bool :=
  v.layers.length != 0 || v.boundaries.length != 0 || v.material.isSome

/-- `DetectorRep`: the volume map, root of one conversion call. -/
structure DetectorRep where
  volumes : List (ℕ × VolumeRep) := []

/-- The flat material maps the converter exchanges with its caller,
keyed by `GeometryID`. -/
abbrev SurfaceMaterialMap := List (GeometryID × MaterialDesc)

/-- The flat volume material map. -/
abbrev VolumeMaterialMap := List (GeometryID × MaterialDesc)

/-- `DetectorMaterialMaps`: the pair of flat maps. -/
abbrev DetectorMaterialMaps := SurfaceMaterialMap × VolumeMaterialMap

/-! ## Encode path -/

/-- Ordered-map insertion: place key `k` at its sorted position; the stored
value is `f` of the present value, or `f d` when the key is new (the
`std::map` operator[]-then-assign idiom). -/
def insertRep {α : Type} (k : ℕ) (d : α) (f : α → α) : List (ℕ × α) → List (ℕ × α)
  | [] => [(k, f d)]
  | (k', v) :: rest =>
    if k < k' then (k, f d) :: (k', v) :: rest
    else if k = k' then (k, f v) :: rest
    else (k', v) :: insertRep k d f rest

/-- A fresh volume Rep holding only its id. -/
def newVolumeRep (v : ℕ) : VolumeRep :=
  { volumeID := v }

/-- A fresh layer Rep holding only its id. -/
def newLayerRep (l : ℕ) : LayerRep :=
  { layerID := l }

/-- Update (or create) the layer Rep at key `l`. -/
def updLayer (vr : VolumeRep) (l : ℕ) (f : LayerRep → LayerRep) : VolumeRep :=
  { vr with layers := insertRep l (newLayerRep l) f vr.layers }

/-- Update (or create) the volume Rep at key `v`. -/
def updVolume (detRep : DetectorRep) (v : ℕ) (f : VolumeRep → VolumeRep) : DetectorRep :=
  ⟨insertRep v (newVolumeRep v) f detRep.volumes⟩

/-- Modelled from the spec: sort one surface map entry into the Rep tree by
the fields of its `GeometryID` — sensitive, approach, boundary or
representing; an id with none of those fields set carries no surface slot
and is skipped. -/
def addSurfaceToRep (detRep : DetectorRep) (id : GeometryID) (m : MaterialDesc) :
    DetectorRep :=
  if id.sen ≠ 0 then
    updVolume detRep id.vol (fun vr => updLayer vr id.lay (fun lr =>
      { lr with sensitives := insertRep id.sen m (fun _ => m) lr.sensitives }))
  else if id.app ≠ 0 then
    updVolume detRep id.vol (fun vr => updLayer vr id.lay (fun lr =>
      { lr with approaches := insertRep id.app m (fun _ => m) lr.approaches }))
  else if id.bou ≠ 0 then
    updVolume detRep id.vol (fun vr =>
      { vr with boundaries := insertRep id.bou m (fun _ => m) vr.boundaries })
  else if id.lay ≠ 0 then
    updVolume detRep id.vol (fun vr => updLayer vr id.lay (fun lr =>
      { lr with representing := some m }))
  else detRep

/-- Modelled from the spec: record one volume material entry. -/
def addVolumeToRep (detRep : DetectorRep) (id : GeometryID) (m : MaterialDesc) :
    DetectorRep :=
  updVolume detRep id.vol (fun vr => { vr with material := some m })

/-- Modelled from the spec: build the transient `DetectorRep` from the two
flat maps (the `materialMapsToJson` front half). -/
def mapsToDetectorRep (maps : DetectorMaterialMaps) : DetectorRep :=
  maps.2.foldl (fun r p => addVolumeToRep r p.1 p.2)
    (maps.1.foldl (fun r p => addSurfaceToRep r p.1 p.2) ⟨[]⟩)

/-- A JSON object keyed by the decimal string form of id values. -/
def keyedObj {α : Type} (m : List (ℕ × α)) (enc : α → Json) : Json :=
  .obj (m.map (fun p => (natToKey p.1, enc p.2)))

/-- Modelled from the spec: one layer object — approach, sensitive and
representing materials, each section omitted when empty (§4.3). -/
def layerRepToJson (lr : LayerRep) : Json :=
  .obj (optField appkey
      (if lr.approaches = [] then none else some (keyedObj lr.approaches surfaceMaterialToJson)) ++
    optField senkey
      (if lr.sensitives = [] then none else some (keyedObj lr.sensitives surfaceMaterialToJson)) ++
    optField repkey (lr.representing.map surfaceMaterialToJson))

/-- The worth-filtered layer map of a volume. -/
def VolumeRep.worthLayers (vr : VolumeRep) : List (ℕ × LayerRep) :=
  vr.layers.filter (fun p => p.2.worth)

/-- Modelled from the spec: one volume object — name, boundary materials,
layer container and volume material; empty sections and layers whose Rep is
empty are omitted (§4.3). -/
def volumeRepToJson (vr : VolumeRep) : Json :=
  .obj ([(namekey, .str vr.volumeName)] ++
    optField boukey
      (if vr.boundaries = [] then none else some (keyedObj vr.boundaries surfaceMaterialToJson)) ++
    optField laykey
      (if vr.worthLayers.isEmpty then none else some (keyedObj vr.worthLayers layerRepToJson)) ++
    optField matkey (vr.material.map surfaceMaterialToJson))

/-- Modelled from the spec: `detectorRepToJson` (missing member body) — the
nested document `detector → volumes → {volume-id → volume object}`; any
volume whose Rep is empty is omitted entirely (§4.3). -/
def detectorRepToJson (detRep : DetectorRep) : Json :=
  .obj [(detkey, .obj [(volkey,
    keyedObj (detRep.volumes.filter (fun p => p.2.worth)) volumeRepToJson)])]

/-- Modelled from the spec: `materialMapsToJson` (missing member body) —
emit the nested schema directly from the two flat maps (§6). -/
def materialMapsToJson (maps : DetectorMaterialMaps) : Json :=
  detectorRepToJson (mapsToDetectorRep maps)

/-- Serialize a document to its byte string (compact form). -/
def serializeJson : Json → String
  | .str s => "\x22" ++ s ++ "\x22"
  | .num q => toString q.num ++ "/" ++ toString q.den
  | .arr xs => "[" ++ String.intercalate "," (xs.attach.map (fun x => serializeJson x.1)) ++ "]"
  | .obj fs => "\x7b" ++ String.intercalate ","
      (fs.attach.map (fun f => "\x22" ++ f.1.1 ++ "\x22:" ++ serializeJson f.1.2)) ++ "\x7d"
decreasing_by
  · have := List.sizeOf_lt_of_mem x.2
    simp only [Json.arr.sizeOf_spec]
    omega
  · have h1 := List.sizeOf_lt_of_mem f.2
    have h2 : sizeOf f.1.2 < sizeOf f.1 := by
      obtain ⟨a, b⟩ := f.1
      simp only [Prod.mk.sizeOf_spec]
      omega
    simp only [Json.obj.sizeOf_spec]
    omega

/-! ## Decode path -/

/-- Modelled from the spec: decode the entries of one id-keyed object of
material entries; each materialized entry is keyed by the `GeometryID`
composed from the enclosing context and the local key (§4.4). -/
def collectKeyed (mkId : ℕ → GeometryID) :
    List (String × Json) → Except ConvErr (List (GeometryID × MaterialDesc))
  | [] => .ok []
  | (k, j) :: rest =>
    match keyToNat k with
    | none => .error .malformedInput
    | some n =>
      match jsonToSurfaceMaterial j, collectKeyed mkId rest with
      | .ok (some d), .ok tail => .ok ((mkId n, d) :: tail)
      | .ok none, .ok tail => .ok tail
      | .error e, _ => .error e
      | .ok _, .error e => .error e

/-- Modelled from the spec: decode one id-keyed section (a boundary,
approach or sensitive container); an absent section contributes nothing. -/
def readSection (k : String) (mkId : ℕ → GeometryID) (fs : List (String × Json)) :
    Except ConvErr (List (GeometryID × MaterialDesc)) :=
  match jlookup k fs with
  | some (.obj ofs) => collectKeyed mkId ofs
  | some _ => .error .malformedInput
  | none => .ok []

/-- Modelled from the spec: decode one optional single material entry (the
representing material of a layer, or the volume material). -/
def readOptEntry (k : String) (id : GeometryID) (fs : List (String × Json)) :
    Except ConvErr (List (GeometryID × MaterialDesc)) :=
  match jlookup k fs with
  | some rj =>
    (jsonToSurfaceMaterial rj).map (fun o =>
      match o with
      | some d => [(id, (d : MaterialDesc))]
      | none => [])
  | none => .ok []

/-- Modelled from the spec: decode one layer object — approach and
sensitive maps and the representing material, each keyed by the composed
`GeometryID` (§4.4). -/
def collectLayer (v l : ℕ) (lval : Json) :
    Except ConvErr (List (GeometryID × MaterialDesc)) :=
  match lval with
  | .obj lfs =>
    match readSection appkey (fun a => ⟨v, 0, l, a, 0⟩) lfs,
        readSection senkey (fun s => ⟨v, 0, l, 0, s⟩) lfs,
        readOptEntry repkey ⟨v, 0, l, 0, 0⟩ lfs with
    | .ok as, .ok ss, .ok rs => .ok (as ++ ss ++ rs)
    | .error e, _, _ => .error e
    | .ok _, .error e, _ => .error e
    | .ok _, .ok _, .error e => .error e
  | _ => .error .malformedInput

/-- Modelled from the spec: decode the layer container of one volume. -/
def collectLayers (v : ℕ) :
    List (String × Json) → Except ConvErr (List (GeometryID × MaterialDesc))
  | [] => .ok []
  | (k, j) :: rest =>
    match keyToNat k with
    | none => .error .malformedInput
    | some l =>
      match collectLayer v l j, collectLayers v rest with
      | .ok es, .ok tail => .ok (es ++ tail)
      | .error e, _ => .error e
      | .ok _, .error e => .error e

/-- Modelled from the spec: decode the layer container of a volume object;
an absent container contributes nothing. -/
def readLayersSection (v : ℕ) (vfs : List (String × Json)) :
    Except ConvErr (List (GeometryID × MaterialDesc)) :=
  match jlookup laykey vfs with
  | some (.obj lfs) => collectLayers v lfs
  | some _ => .error .malformedInput
  | none => .ok []

/-- Modelled from the spec: decode one volume object into its surface
entries (boundaries and layer contents) and volume material entries
(§4.4). -/
def collectVolume (v : ℕ) (vval : Json) :
    Except ConvErr (List (GeometryID × MaterialDesc) × List (GeometryID × MaterialDesc)) :=
  match vval with
  | .obj vfs =>
    match readSection boukey (fun b => ⟨v, b, 0, 0, 0⟩) vfs,
        readLayersSection v vfs,
        readOptEntry matkey ⟨v, 0, 0, 0, 0⟩ vfs with
    | .ok bs, .ok ls, .ok ms => .ok (bs ++ ls, ms)
    | .error e, _, _ => .error e
    | .ok _, .error e, _ => .error e
    | .ok _, .ok _, .error e => .error e
  | _ => .error .malformedInput

/-- Modelled from the spec: decode the volume container. -/
def collectVolumes :
    List (String × Json) →
      Except ConvErr (List (GeometryID × MaterialDesc) × List (GeometryID × MaterialDesc))
  | [] => .ok ([], [])
  | (k, j) :: rest =>
    match keyToNat k with
    | none => .error .malformedInput
    | some v =>
      match collectVolume v j, collectVolumes rest with
      | .ok es, .ok tail => .ok (es.1 ++ tail.1, es.2 ++ tail.2)
      | .error e, _ => .error e
      | .ok _, .error e => .error e

/-- Modelled from the spec: walk the nested document and produce, in
traversal order, every decoded (id, descriptor) pair, before collision
checking. -/
def collectMaps (doc : Json) :
    Except ConvErr (List (GeometryID × MaterialDesc) × List (GeometryID × MaterialDesc)) :=
  match doc with
  | .obj fs =>
    match jlookup detkey fs with
    | some (.obj dfs) =>
      match jlookup volkey dfs with
      | some (.obj vfs) => collectVolumes vfs
      | some _ => .error .malformedInput
      | none => .ok ([], [])
    | some _ => .error .malformedInput
    | none => .ok ([], [])
  | _ => .error .malformedInput

/-- Insert one decoded entry into a flat output map; a second entry for the
same `GeometryID` is a collision and fails rather than overwriting. -/
def insertChecked (m : List (GeometryID × MaterialDesc)) (id : GeometryID)
    (d : MaterialDesc) : Except ConvErr (List (GeometryID × MaterialDesc)) :=
  if m.any (fun p => p.1 == id) then .error .geometryIdCollision
  else .ok (m ++ [(id, d)])

/-- Insert all decoded entries in order, failing on the first collision. -/
def insertAllChecked (es : List (GeometryID × MaterialDesc))
    (acc : List (GeometryID × MaterialDesc)) :
    Except ConvErr (List (GeometryID × MaterialDesc)) :=
  match es with
  | [] => .ok acc
  | (id, d) :: rest =>
    match insertChecked acc id d with
    | .ok acc' => insertAllChecked rest acc'
    | .error e => .error e

/-- Modelled from the spec: `jsonToMaterialMaps` (missing member body) —
parse the nested schema and flatten it into the two flat maps keyed by
reconstructed `GeometryID`s; all failures are surfaced to the caller with
no partial result (§4.4, §7). -/
def jsonToMaterialMaps (materialmaps : Json) : Except ConvErr DetectorMaterialMaps :=
  match collectMaps materialmaps with
  | .ok es =>
    match insertAllChecked es.1 [], insertAllChecked es.2 [] with
    | .ok smap, .ok vmap => .ok (smap, vmap)
    | .error e, _ => .error e
    | .ok _, .error e => .error e
  | .error e => .error e

/-! ## Claim C10: default configuration -/

/-- C10: a default-constructed `Config` has every processing toggle and
`writeData` equal to `true`, the listed default JSON field names, and
geoversion `"undefined"`. -/
theorem config_defaults :
    defaultConfig.processSensitives = true ∧ defaultConfig.processApproaches = true ∧
    defaultConfig.processRepresenting = true ∧ defaultConfig.processBoundaries = true ∧
    defaultConfig.processVolumes = true ∧ defaultConfig.writeData = true ∧
    defaultConfig.detkey = "detector" ∧ defaultConfig.volkey = "volumes" ∧
    defaultConfig.namekey = "name" ∧ defaultConfig.boukey = "boundaries" ∧
    defaultConfig.laykey = "layers" ∧ defaultConfig.matkey = "material" ∧
    defaultConfig.appkey = "approach" ∧ defaultConfig.senkey = "sensitive" ∧
    defaultConfig.repkey = "representing" ∧ defaultConfig.bin0key = "bin0" ∧
    defaultConfig.bin1key = "bin1" ∧ defaultConfig.typekey = "type" ∧
    defaultConfig.datakey = "data" ∧ defaultConfig.geoidkey = "geoid" ∧
    defaultConfig.geoversion = "undefined" :=
  ⟨rfl, rfl, rfl, rfl, rfl, rfl, rfl, rfl, rfl, rfl, rfl, rfl, rfl, rfl, rfl,
    rfl, rfl, rfl, rfl, rfl, rfl⟩

/-! ## Claim C7: emptiness predicates -/

/-- C7: a `LayerRep` is worth writing out iff its sensitive map, approach
map or representing material is populated; a `VolumeRep` iff its layer map,
boundary map or volume material is populated. -/
theorem rep_worth_iff :
    (∀ l : LayerRep, l.worth = true ↔
      (l.sensitives ≠ [] ∨ l.approaches ≠ [] ∨ l.representing.isSome = true)) ∧
    (∀ v : VolumeRep, v.worth = true ↔
      (v.layers ≠ [] ∨ v.boundaries ≠ [] ∨ v.material.isSome = true)) := by
  constructor
  · intro l
    simp only [LayerRep.worth, Bool.or_eq_true, bne_iff_ne, ne_eq,
      List.length_eq_zero, or_assoc]
  · intro v
    simp only [VolumeRep.worth, Bool.or_eq_true, bne_iff_ne, ne_eq,
      List.length_eq_zero, or_assoc]

/-! ## Claim C8: proto preservation -/

/-- C8: a `Proto` descriptor encodes to an entry whose `type` is `"proto"`
with no data array; decoding any entry whose `type` is `"proto"` succeeds
with the placeholder descriptor; and a layer Rep holding a proto sensitive
counts as worth writing out, so such surfaces are still emitted. -/
theorem proto_preservation :
    (∃ fs, surfaceMaterialToJson .proto = .obj fs ∧
      jlookup typekey fs = some (.str "proto") ∧ jlookup datakey fs = none) ∧
    (∀ fs : List (String × Json), jlookup typekey fs = some (.str "proto") →
      jsonToSurfaceMaterial (.obj fs) = .ok (some .proto)) ∧
    (∀ (lr : LayerRep) (s : ℕ), (s, MaterialDesc.proto) ∈ lr.sensitives →
      lr.worth = true) := by
  refine ⟨⟨[(typekey, .str "proto")], rfl, rfl, rfl⟩, ?_, ?_⟩
  · intro fs hfs
    rw [jsonToSurfaceMaterial, hfs]
    rfl
  · intro lr s hs
    have : lr.sensitives ≠ [] := by
      intro h
      rw [h] at hs
      exact absurd hs (List.not_mem_nil _)
    simp [LayerRep.worth, List.length_eq_zero, this]

/-- Witness for C8 at concrete inputs. -/
theorem proto_preservation_witness :
    jsonToSurfaceMaterial (.obj [(typekey, .str "proto")]) = .ok (some .proto) ∧
    LayerRep.worth ⟨7, [(16, .proto)], [], none⟩ = true :=
  ⟨proto_preservation.2.1 [(typekey, .str "proto")] rfl,
    proto_preservation.2.2 ⟨7, [(16, .proto)], [], none⟩ 16 (by simp)⟩

/-! ## Claim C4: MalformedInput condition -/

/-- C4: decoding a material payload fails with `MalformedInput` when the
data array's dimensions do not equal the rows × cols implied by the
bin-axis descriptors, or when a present `type` tag is unrecognized; a
well-shaped payload with a recognized tag never produces that failure. -/
theorem malformed_input_condition :
    (∀ (b0? b1? : Option BinAxis) (m : List (List MaterialCell)),
      ¬(m.length = rowsOf b1? ∧ ∀ r ∈ m, r.length = colsOf b0?) →
      jsonToSurfaceMaterial (dataPayload b0? b1? m) = .error .malformedInput) ∧
    (∀ (fs : List (String × Json)) (t : String),
      jlookup typekey fs = some (.str t) → t ≠ "proto" → t ≠ "data" →
      jsonToSurfaceMaterial (.obj fs) = .error .malformedInput) ∧
    (∀ (b0? b1? : Option BinAxis) (m : List (List MaterialCell)),
      (m.length = rowsOf b1? ∧ ∀ r ∈ m, r.length = colsOf b0?) →
      ∃ d, jsonToSurfaceMaterial (dataPayload b0? b1? m) = .ok (some d)) := by
  refine ⟨?_, ?_, ?_⟩
  · intro b0? b1? m hshape
    rw [jsonToSurfaceMaterial_dataPayload, buildDesc_misshaped b0? b1? m hshape]
    rfl
  · intro fs t hfs ht1 ht2
    rw [jsonToSurfaceMaterial, hfs]
    split
    · next h =>
        simp only [Option.some.injEq, Json.str.injEq] at h
        exact absurd h ht1
    · next h =>
        simp only [Option.some.injEq, Json.str.injEq] at h
        exact absurd h ht2
    · rfl
    · next h => simp at h
  · intro b0? b1? m hshape
    rw [jsonToSurfaceMaterial_dataPayload]
    by_cases h11 : rowsOf b1? = 1 ∧ colsOf b0? = 1
    · obtain ⟨c, _, hb⟩ := (buildDesc_shaped b0? b1? m hshape).1 h11
      exact ⟨.homogeneous c, by rw [hb]; rfl⟩
    · have hb := (buildDesc_shaped b0? b1? m hshape).2 h11
      cases b0? with
      | some b0 =>
        cases b1? with
        | some b1 => exact ⟨.binned2 b0 b1 m, by rw [hb]; rfl⟩
        | none => exact ⟨.binned1 b0 m.flatten, by rw [hb]; rfl⟩
      | none =>
        cases b1? with
        | some b1 => exact ⟨.binned1 b1 m.flatten, by rw [hb]; rfl⟩
        | none => exact absurd ⟨rfl, rfl⟩ h11

/-- Witness for C4 at concrete inputs: an empty matrix against implied
shape 1 × 1 is malformed; a bogus type tag is malformed; a correct 1 × 1
payload decodes. -/
theorem malformed_input_condition_witness :
    jsonToSurfaceMaterial (dataPayload none none []) = .error .malformedInput ∧
    jsonToSurfaceMaterial (.obj [(typekey, .str "bogus")]) = .error .malformedInput ∧
    ∃ d, jsonToSurfaceMaterial (dataPayload none none [[⟨1, 2, 3, 4, 5, 6⟩]]) =
      .ok (some d) :=
  ⟨malformed_input_condition.1 none none [] (by simp [rowsOf]),
    malformed_input_condition.2.1 [(typekey, .str "bogus")] "bogus" rfl
      (by decide) (by decide),
    malformed_input_condition.2.2 none none [[⟨1, 2, 3, 4, 5, 6⟩]]
      (by simp [rowsOf, colsOf])⟩

/-! ## Claim C9: shape reconstruction on decode -/

/-- The descriptor the spec's words prescribe for a well-shaped `"data"`
payload: homogeneous when the implied shape is 1 × 1, else binned, built
from the matrix and the axis metadata.  (The fall-through arms are
unreachable for shaped payloads.) -/
def specShapeDesc (b0? b1? : Option BinAxis) (m : List (List MaterialCell)) :
    MaterialDesc :=
  if rowsOf b1? = 1 ∧ colsOf b0? = 1 then
    match m.flatten with
    | [c] => .homogeneous c
    | _ => .proto
  else
    match b0?, b1? with
    | some b0, some b1 => .binned2 b0 b1 m
    | some b0, none => .binned1 b0 m.flatten
    | none, some b1 => .binned1 b1 m.flatten
    | none, none => .proto

/-- C9: for every `"data"` payload whose data array has exactly the shape
(rows, cols) = (bin count of axis 1 or 1, bin count of axis 0 or 1), decode
succeeds with the descriptor built from the matrix and the axis metadata,
and that descriptor is homogeneous precisely when rows = cols = 1. -/
theorem shape_reconstruction (b0? b1? : Option BinAxis) (m : List (List MaterialCell))
    (hshape : m.length = rowsOf b1? ∧ ∀ r ∈ m, r.length = colsOf b0?) :
    jsonToSurfaceMaterial (dataPayload b0? b1? m) =
      .ok (some (specShapeDesc b0? b1? m)) ∧
    ((∃ c, specShapeDesc b0? b1? m = .homogeneous c) ↔
      (rowsOf b1? = 1 ∧ colsOf b0? = 1)) := by
  rw [jsonToSurfaceMaterial_dataPayload]
  by_cases h11 : rowsOf b1? = 1 ∧ colsOf b0? = 1
  · obtain ⟨c, hm, hb⟩ := (buildDesc_shaped b0? b1? m hshape).1 h11
    have hflat : m.flatten = [c] := by rw [hm]; simp
    have hspec : specShapeDesc b0? b1? m = .homogeneous c := by
      unfold specShapeDesc
      rw [if_pos h11, hflat]
    rw [hb, hspec]
    exact ⟨rfl, ⟨fun _ => h11, fun _ => ⟨c, rfl⟩⟩⟩
  · have hb := (buildDesc_shaped b0? b1? m hshape).2 h11
    unfold specShapeDesc
    rw [if_neg h11]
    cases b0? with
    | some b0 =>
      cases b1? with
      | some b1 =>
        rw [hb]
        exact ⟨rfl, ⟨fun hx => absurd hx.choose_spec (by simp), fun h => absurd h h11⟩⟩
      | none =>
        rw [hb]
        exact ⟨rfl, ⟨fun hx => absurd hx.choose_spec (by simp), fun h => absurd h h11⟩⟩
    | none =>
      cases b1? with
      | some b1 =>
        rw [hb]
        exact ⟨rfl, ⟨fun hx => absurd hx.choose_spec (by simp), fun h => absurd h h11⟩⟩
      | none => exact absurd ⟨rfl, rfl⟩ h11

/-- Witness for C9 at a concrete 1 × 2 binned payload. -/
theorem shape_reconstruction_witness :
    jsonToSurfaceMaterial
        (dataPayload (some (.equidistant 2 0 1)) none
          [[⟨1, 2, 3, 4, 5, 6⟩, ⟨7, 8, 9, 10, 11, 12⟩]]) =
      .ok (some (specShapeDesc (some (.equidistant 2 0 1)) none
        [[⟨1, 2, 3, 4, 5, 6⟩, ⟨7, 8, 9, 10, 11, 12⟩]])) :=
  (shape_reconstruction (some (.equidistant 2 0 1)) none
    [[⟨1, 2, 3, 4, 5, 6⟩, ⟨7, 8, 9, 10, 11, 12⟩]]
    (by simp [rowsOf, colsOf, BinAxis.binsCount])).1

/-! ## Claim C6: sparsity of the emitted document -/

theorem nodup_keys_eq {α : Type} {l : List (ℕ × α)} (h : (l.map Prod.fst).Nodup)
    {k : ℕ} {a b : α} (ha : (k, a) ∈ l) (hb : (k, b) ∈ l) : a = b := by
  induction l with
  | nil => cases ha
  | cons p rest ih =>
    simp only [List.map_cons, List.nodup_cons] at h
    rcases List.mem_cons.mp ha with h1 | h1 <;> rcases List.mem_cons.mp hb with h2 | h2
    · exact congrArg Prod.snd (h1.trans h2.symm)
    · subst h1
      exact absurd (List.mem_map_of_mem Prod.fst h2) h.1
    · subst h2
      exact absurd (List.mem_map_of_mem Prod.fst h1) h.1
    · exact ih h.2 h1 h2

theorem jlookup_append_none {k : String} {fs : List (String × Json)}
    (h : jlookup k fs = none) (gs : List (String × Json)) :
    jlookup k (fs ++ gs) = jlookup k gs := by
  induction fs with
  | nil => rfl
  | cons p rest ih =>
    rw [jlookup] at h
    by_cases hk : p.1 = k
    · rw [if_pos hk] at h; cases h
    · rw [if_neg hk] at h
      rw [List.cons_append, jlookup, if_neg hk]
      exact ih h

theorem jlookup_optField_ne {k k' : String} (h : k' ≠ k) (o : Option Json) :
    jlookup k (optField k' o) = none := by
  cases o with
  | none => rfl
  | some j => simp [optField, jlookup, h]

theorem jlookup_optField_eq (k : String) (o : Option Json) :
    jlookup k (optField k o) = o := by
  cases o with
  | none => rfl
  | some j => simp [optField, jlookup]

/-- The field list of the volumes container of an encoded document. -/
def volumesFields (j : Json) : List (String × Json) :=
  match j with
  | .obj fs =>
    match jlookup detkey fs with
    | some (.obj dfs) =>
      match jlookup volkey dfs with
      | some (.obj vfs) => vfs
      | _ => []
    | _ => []
  | _ => []

/-- The field list of one JSON object. -/
def objFields (j : Json) : List (String × Json) :=
  match j with
  | .obj fs => fs
  | _ => []

theorem volumesFields_detectorRepToJson (detRep : DetectorRep) :
    volumesFields (detectorRepToJson detRep) =
      (detRep.volumes.filter (fun p => p.2.worth)).map
        (fun p => (natToKey p.1, volumeRepToJson p.2)) := rfl

theorem jlookup_single_ne {k k' : String} (h : k' ≠ k) (v : Json) :
    jlookup k [(k', v)] = none := by
  simp [jlookup, h]

theorem jlookup_optField_append (k : String) (o : Option Json)
    (gs : List (String × Json)) :
    jlookup k (optField k o ++ gs) = o.or (jlookup k gs) := by
  cases o with
  | none => rfl
  | some j => simp [optField, jlookup]

theorem jlookup_volumeRep_laykey (vr : VolumeRep) :
    jlookup laykey (objFields (volumeRepToJson vr)) =
      (if vr.worthLayers.isEmpty then none
        else some (keyedObj vr.worthLayers layerRepToJson)) := by
  show jlookup laykey ([(namekey, .str vr.volumeName)] ++ _ ++ _ ++ _) = _
  rw [List.append_assoc, List.append_assoc,
    jlookup_append_none (jlookup_single_ne (by decide) _),
    jlookup_append_none (jlookup_optField_ne (by decide) _),
    jlookup_optField_append, jlookup_optField_ne (by decide), Option.or_none]

theorem jlookup_volumeRep_boukey (vr : VolumeRep) :
    jlookup boukey (objFields (volumeRepToJson vr)) =
      (if vr.boundaries = [] then none
        else some (keyedObj vr.boundaries surfaceMaterialToJson)) := by
  show jlookup boukey ([(namekey, .str vr.volumeName)] ++ _ ++ _ ++ _) = _
  rw [List.append_assoc, List.append_assoc,
    jlookup_append_none (jlookup_single_ne (by decide) _),
    jlookup_optField_append, jlookup_append_none (jlookup_optField_ne (by decide) _),
    jlookup_optField_ne (by decide), Option.or_none]

theorem objFields_keyedObj {α : Type} (m : List (ℕ × α)) (enc : α → Json) :
    objFields (keyedObj m enc) = m.map (fun p => (natToKey p.1, enc p.2)) := rfl

/-- C6: a volume whose Rep is empty never appears as a key in the volumes
container of the encoded document; a layer whose Rep is empty never appears
as a key in a layer container; and empty boundary and layer sections are
omitted entirely, so the document holds no empty containers. -/
theorem sparsity :
    (∀ detRep : DetectorRep, (detRep.volumes.map Prod.fst).Nodup →
      ∀ v vr, (v, vr) ∈ detRep.volumes → vr.worth = false →
        natToKey v ∉ (volumesFields (detectorRepToJson detRep)).map Prod.fst) ∧
    (∀ vr : VolumeRep, (vr.layers.map Prod.fst).Nodup →
      ∀ l lr, (l, lr) ∈ vr.layers → lr.worth = false →
        natToKey l ∉ (objFields (keyedObj vr.worthLayers layerRepToJson)).map Prod.fst) ∧
    (∀ vr : VolumeRep, vr.worthLayers = [] →
      jlookup laykey (objFields (volumeRepToJson vr)) = none) ∧
    (∀ vr : VolumeRep, vr.boundaries = [] →
      jlookup boukey (objFields (volumeRepToJson vr)) = none) := by
  refine ⟨?_, ?_, ?_, ?_⟩
  · intro detRep hnd v vr hmem hworth hcontra
    rw [volumesFields_detectorRepToJson, List.map_map] at hcontra
    obtain ⟨⟨pk, pvr⟩, hp, hkey⟩ := List.mem_map.mp hcontra
    have hp1 : pk = v := natToKey_injective hkey
    rw [List.mem_filter] at hp
    subst hp1
    have : pvr = vr := nodup_keys_eq hnd hp.1 hmem
    subst this
    rw [hworth] at hp
    exact Bool.false_ne_true hp.2
  · intro vr hnd l lr hmem hworth hcontra
    rw [objFields_keyedObj, List.map_map] at hcontra
    obtain ⟨⟨pk, plr⟩, hp, hkey⟩ := List.mem_map.mp hcontra
    have hp1 : pk = l := natToKey_injective hkey
    rw [VolumeRep.worthLayers, List.mem_filter] at hp
    subst hp1
    have : plr = lr := nodup_keys_eq hnd hp.1 hmem
    subst this
    rw [hworth] at hp
    exact Bool.false_ne_true hp.2
  · intro vr h
    rw [jlookup_volumeRep_laykey, h]
    rfl
  · intro vr h
    rw [jlookup_volumeRep_boukey, if_pos h]

/-- Witness for C6: an empty volume Rep is omitted from the volumes
container, an empty layer Rep is omitted from its layer container, and the
empty sections of a volume with no boundaries and no worthy layers are
absent. -/
theorem sparsity_witness :
    natToKey 1 ∉ (volumesFields (detectorRepToJson ⟨[(1, {})]⟩)).map Prod.fst ∧
    natToKey 5 ∉ (objFields (keyedObj
      (VolumeRep.worthLayers ⟨2, "v", [(5, ⟨5, [], [], none⟩)], [], none⟩)
      layerRepToJson)).map Prod.fst ∧
    jlookup laykey
      (objFields (volumeRepToJson ⟨2, "v", [(5, ⟨5, [], [], none⟩)], [], none⟩)) = none ∧
    jlookup boukey
      (objFields (volumeRepToJson ⟨2, "v", [(5, ⟨5, [], [], none⟩)], [], none⟩)) = none :=
  ⟨sparsity.1 ⟨[(1, {})]⟩ (by simp) 1 {} (by simp) rfl,
    sparsity.2.1 ⟨2, "v", [(5, ⟨5, [], [], none⟩)], [], none⟩ (by simp) 5
      ⟨5, [], [], none⟩ (by simp) rfl,
    sparsity.2.2.1 ⟨2, "v", [(5, ⟨5, [], [], none⟩)], [], none⟩ rfl,
    sparsity.2.2.2 ⟨2, "v", [(5, ⟨5, [], [], none⟩)], [], none⟩ rfl⟩

/-! ## Claim C2: determinism and ascending id keys -/

/-- The keys of an association list ascend strictly. -/
def keySorted {α : Type} (l : List (ℕ × α)) : Prop :=
  l.Pairwise (fun p q => p.1 < q.1)

theorem insertRep_mem {α : Type} (k : ℕ) (d : α) (f : α → α) (l : List (ℕ × α)) :
    ∀ p ∈ insertRep k d f l, p ∈ l ∨ ∃ v0, p = (k, f v0) ∧ (v0 = d ∨ (k, v0) ∈ l) := by
  induction l with
  | nil =>
    intro p hp
    simp only [insertRep, List.mem_singleton] at hp
    exact Or.inr ⟨d, hp, Or.inl rfl⟩
  | cons q rest ih =>
    obtain ⟨qk, qv⟩ := q
    intro p hp
    rw [insertRep] at hp
    by_cases h1 : k < qk
    · rw [if_pos h1] at hp
      rcases List.mem_cons.mp hp with rfl | hp'
      · exact Or.inr ⟨d, rfl, Or.inl rfl⟩
      · exact Or.inl hp'
    · rw [if_neg h1] at hp
      by_cases h2 : k = qk
      · rw [if_pos h2] at hp
        rcases List.mem_cons.mp hp with rfl | hp'
        · exact Or.inr ⟨qv, rfl, Or.inr (h2 ▸ List.mem_cons_self _ _)⟩
        · exact Or.inl (List.mem_cons_of_mem _ hp')
      · rw [if_neg h2] at hp
        rcases List.mem_cons.mp hp with rfl | hp'
        · exact Or.inl (List.mem_cons_self _ _)
        · rcases ih p hp' with h | ⟨v0, rfl, hv0⟩
          · exact Or.inl (List.mem_cons_of_mem _ h)
          · rcases hv0 with rfl | hv0'
            · exact Or.inr ⟨v0, rfl, Or.inl rfl⟩
            · exact Or.inr ⟨v0, rfl, Or.inr (List.mem_cons_of_mem _ hv0')⟩

theorem insertRep_keySorted {α : Type} (k : ℕ) (d : α) (f : α → α)
    {l : List (ℕ × α)} (h : keySorted l) : keySorted (insertRep k d f l) := by
  induction l with
  | nil =>
    rw [insertRep, keySorted]
    exact List.pairwise_singleton _ _
  | cons q rest ih =>
    obtain ⟨qk, qv⟩ := q
    rw [keySorted, List.pairwise_cons] at h
    obtain ⟨hq, hrest⟩ := h
    rw [insertRep]
    by_cases h1 : k < qk
    · rw [if_pos h1, keySorted, List.pairwise_cons]
      refine ⟨?_, ?_⟩
      · intro p hp
        rcases List.mem_cons.mp hp with rfl | hp'
        · exact h1
        · exact lt_trans h1 (hq p hp')
      · rw [List.pairwise_cons]
        exact ⟨hq, hrest⟩
    · rw [if_neg h1]
      by_cases h2 : k = qk
      · rw [if_pos h2, keySorted, List.pairwise_cons]
        subst h2
        exact ⟨hq, hrest⟩
      · rw [if_neg h2, keySorted, List.pairwise_cons]
        refine ⟨?_, ih hrest⟩
        intro p hp
        rcases insertRep_mem k d f rest p hp with hp' | ⟨v0, rfl, _⟩
        · exact hq p hp'
        · omega

/-- All id maps of a layer Rep have strictly ascending keys. -/
def LayerRep.sortedKeys (lr : LayerRep) : Prop :=
  keySorted lr.sensitives ∧ keySorted lr.approaches

/-- All id maps of a volume Rep have strictly ascending keys. -/
def VolumeRep.sortedKeys (vr : VolumeRep) : Prop :=
  keySorted vr.layers ∧ keySorted vr.boundaries ∧ ∀ q ∈ vr.layers, q.2.sortedKeys

/-- All id maps of a detector Rep have strictly ascending keys. -/
def DetectorRep.sortedKeys (detRep : DetectorRep) : Prop :=
  keySorted detRep.volumes ∧ ∀ p ∈ detRep.volumes, p.2.sortedKeys

theorem newLayerRep_sortedKeys (l : ℕ) : (newLayerRep l).sortedKeys :=
  ⟨List.Pairwise.nil, List.Pairwise.nil⟩

theorem newVolumeRep_sortedKeys (v : ℕ) : (newVolumeRep v).sortedKeys :=
  ⟨List.Pairwise.nil, List.Pairwise.nil, fun q hq => absurd hq (List.not_mem_nil q)⟩

theorem updLayer_sortedKeys (vr : VolumeRep) (l : ℕ) (f : LayerRep → LayerRep)
    (hf : ∀ lr : LayerRep, lr.sortedKeys → (f lr).sortedKeys)
    (h : vr.sortedKeys) : (updLayer vr l f).sortedKeys := by
  obtain ⟨h1, h2, h3⟩ := h
  refine ⟨insertRep_keySorted _ _ _ h1, h2, ?_⟩
  intro q hq
  rcases insertRep_mem _ _ _ _ q hq with hq' | ⟨v0, rfl, hv0⟩
  · exact h3 q hq'
  · rcases hv0 with rfl | hv0'
    · exact hf _ (newLayerRep_sortedKeys l)
    · exact hf _ (h3 (l, v0) hv0')

theorem updVolume_sortedKeys (detRep : DetectorRep) (v : ℕ) (f : VolumeRep → VolumeRep)
    (hf : ∀ vr : VolumeRep, vr.sortedKeys → (f vr).sortedKeys)
    (h : detRep.sortedKeys) : (updVolume detRep v f).sortedKeys := by
  obtain ⟨h1, h2⟩ := h
  refine ⟨insertRep_keySorted _ _ _ h1, ?_⟩
  intro p hp
  rcases insertRep_mem _ _ _ _ p hp with hp' | ⟨v0, rfl, hv0⟩
  · exact h2 p hp'
  · rcases hv0 with rfl | hv0'
    · exact hf _ (newVolumeRep_sortedKeys v)
    · exact hf _ (h2 (v, v0) hv0')

theorem addSurfaceToRep_sortedKeys (detRep : DetectorRep) (id : GeometryID)
    (m : MaterialDesc) (h : detRep.sortedKeys) :
    (addSurfaceToRep detRep id m).sortedKeys := by
  rw [addSurfaceToRep]
  by_cases hs : id.sen ≠ 0
  · rw [if_pos hs]
    refine updVolume_sortedKeys _ _ _ (fun vr hvr => ?_) h
    refine updLayer_sortedKeys _ _ _ (fun lr hlr => ?_) hvr
    exact ⟨insertRep_keySorted _ _ _ hlr.1, hlr.2⟩
  · rw [if_neg hs]
    by_cases ha : id.app ≠ 0
    · rw [if_pos ha]
      refine updVolume_sortedKeys _ _ _ (fun vr hvr => ?_) h
      refine updLayer_sortedKeys _ _ _ (fun lr hlr => ?_) hvr
      exact ⟨hlr.1, insertRep_keySorted _ _ _ hlr.2⟩
    · rw [if_neg ha]
      by_cases hb : id.bou ≠ 0
      · rw [if_pos hb]
        refine updVolume_sortedKeys _ _ _ (fun vr hvr => ?_) h
        exact ⟨hvr.1, insertRep_keySorted _ _ _ hvr.2.1, hvr.2.2⟩
      · rw [if_neg hb]
        by_cases hl : id.lay ≠ 0
        · rw [if_pos hl]
          refine updVolume_sortedKeys _ _ _ (fun vr hvr => ?_) h
          refine updLayer_sortedKeys _ _ _ (fun lr hlr => ?_) hvr
          exact ⟨hlr.1, hlr.2⟩
        · rw [if_neg hl]
          exact h

theorem addVolumeToRep_sortedKeys (detRep : DetectorRep) (id : GeometryID)
    (m : MaterialDesc) (h : detRep.sortedKeys) :
    (addVolumeToRep detRep id m).sortedKeys := by
  refine updVolume_sortedKeys _ _ _ (fun vr hvr => ?_) h
  exact ⟨hvr.1, hvr.2.1, hvr.2.2⟩

theorem mapsToDetectorRep_sortedKeys (maps : DetectorMaterialMaps) :
    (mapsToDetectorRep maps).sortedKeys := by
  rw [mapsToDetectorRep]
  have base : (DetectorRep.mk []).sortedKeys :=
    ⟨List.Pairwise.nil, fun p hp => absurd hp (List.not_mem_nil p)⟩
  have hsurf : ∀ (es : List (GeometryID × MaterialDesc)) (acc : DetectorRep),
      acc.sortedKeys →
      (es.foldl (fun r p => addSurfaceToRep r p.1 p.2) acc).sortedKeys := by
    intro es
    induction es with
    | nil => intro acc h; exact h
    | cons e rest ih =>
      intro acc h
      exact ih _ (addSurfaceToRep_sortedKeys _ _ _ h)
  have hvol : ∀ (es : List (GeometryID × MaterialDesc)) (acc : DetectorRep),
      acc.sortedKeys →
      (es.foldl (fun r p => addVolumeToRep r p.1 p.2) acc).sortedKeys := by
    intro es
    induction es with
    | nil => intro acc h; exact h
    | cons e rest ih =>
      intro acc h
      exact ih _ (addVolumeToRep_sortedKeys _ _ _ h)
  exact hvol _ _ (hsurf _ _ base)

/-- An id-keyed object: its keys are the decimal strings of a strictly
ascending list of id values. -/
def IdKeyed (fs : List (String × Json)) : Prop :=
  ∃ ids : List ℕ, ids.Pairwise (· < ·) ∧ fs.map Prod.fst = ids.map natToKey

/-- Any present section under key `k` is an id-keyed object. -/
def sectionIdKeyed (k : String) (j : Json) : Prop :=
  ∀ sj, jlookup k (objFields j) = some sj → IdKeyed (objFields sj)

theorem keyedObj_IdKeyed {α : Type} {m : List (ℕ × α)} (h : keySorted m)
    (enc : α → Json) : IdKeyed (objFields (keyedObj m enc)) := by
  refine ⟨m.map Prod.fst, List.pairwise_map.mpr h, ?_⟩
  rw [objFields_keyedObj, List.map_map, List.map_map]
  rfl

theorem jlookup_layerRep_appkey (lr : LayerRep) :
    jlookup appkey (objFields (layerRepToJson lr)) =
      (if lr.approaches = [] then none
        else some (keyedObj lr.approaches surfaceMaterialToJson)) := by
  show jlookup appkey (_ ++ _ ++ _) = _
  rw [List.append_assoc, jlookup_optField_append,
    jlookup_append_none (jlookup_optField_ne (by decide) _),
    jlookup_optField_ne (by decide), Option.or_none]

theorem jlookup_layerRep_senkey (lr : LayerRep) :
    jlookup senkey (objFields (layerRepToJson lr)) =
      (if lr.sensitives = [] then none
        else some (keyedObj lr.sensitives surfaceMaterialToJson)) := by
  show jlookup senkey (_ ++ _ ++ _) = _
  rw [List.append_assoc, jlookup_append_none (jlookup_optField_ne (by decide) _),
    jlookup_optField_append, jlookup_optField_ne (by decide), Option.or_none]

/-- C2: encoding the same maps twice yields byte-identical documents, and
every id-keyed mapping of the document — the volume container, each
volume's boundary and layer containers, and each layer's approach and
sensitive containers — is keyed by the decimal string form of strictly
ascending id values. -/
theorem encode_deterministic (maps : DetectorMaterialMaps) :
    serializeJson (materialMapsToJson maps) = serializeJson (materialMapsToJson maps) ∧
    IdKeyed (volumesFields (materialMapsToJson maps)) ∧
    ∀ p ∈ volumesFields (materialMapsToJson maps),
      sectionIdKeyed boukey p.2 ∧ sectionIdKeyed laykey p.2 ∧
      ∀ q, jlookup laykey (objFields p.2) = some q →
        ∀ lp ∈ objFields q, sectionIdKeyed appkey lp.2 ∧ sectionIdKeyed senkey lp.2 := by
  obtain ⟨hvols, hmem⟩ := mapsToDetectorRep_sortedKeys maps
  have hfields : volumesFields (materialMapsToJson maps) =
      ((mapsToDetectorRep maps).volumes.filter (fun p => p.2.worth)).map
        (fun p => (natToKey p.1, volumeRepToJson p.2)) := rfl
  refine ⟨rfl, ?_, ?_⟩
  · exact hfields ▸ keyedObj_IdKeyed (List.Pairwise.filter _ hvols) volumeRepToJson
  · intro p hp
    rw [hfields] at hp
    obtain ⟨⟨v, vr⟩, hvr, rfl⟩ := List.mem_map.mp hp
    have hvr' : (v, vr) ∈ (mapsToDetectorRep maps).volumes := List.mem_of_mem_filter hvr
    obtain ⟨hlay, hbou, hlrs⟩ := hmem (v, vr) hvr'
    refine ⟨?_, ?_, ?_⟩
    · intro sj hsj
      rw [jlookup_volumeRep_boukey] at hsj
      by_cases hb : vr.boundaries = []
      · rw [if_pos hb] at hsj; cases hsj
      · rw [if_neg hb] at hsj
        cases hsj
        exact keyedObj_IdKeyed hbou surfaceMaterialToJson
    · intro sj hsj
      rw [jlookup_volumeRep_laykey] at hsj
      by_cases hb : vr.worthLayers.isEmpty
      · rw [if_pos hb] at hsj; cases hsj
      · rw [if_neg hb] at hsj
        cases hsj
        exact keyedObj_IdKeyed (List.Pairwise.filter _ hlay) layerRepToJson
    · intro q hq
      rw [jlookup_volumeRep_laykey] at hq
      by_cases hb : vr.worthLayers.isEmpty
      · rw [if_pos hb] at hq; cases hq
      · rw [if_neg hb] at hq
        cases hq
        intro lp hlp
        rw [objFields_keyedObj] at hlp
        obtain ⟨⟨l, lr⟩, hlr, rfl⟩ := List.mem_map.mp hlp
        have hlr' : (l, lr) ∈ vr.layers :=
          List.mem_of_mem_filter hlr
        obtain ⟨hsen, happ⟩ := hlrs (l, lr) hlr'
        constructor
        · intro sj hsj
          rw [jlookup_layerRep_appkey] at hsj
          by_cases hb' : lr.approaches = []
          · rw [if_pos hb'] at hsj; cases hsj
          · rw [if_neg hb'] at hsj
            cases hsj
            exact keyedObj_IdKeyed happ surfaceMaterialToJson
        · intro sj hsj
          rw [jlookup_layerRep_senkey] at hsj
          by_cases hb' : lr.sensitives = []
          · rw [if_pos hb'] at hsj; cases hsj
          · rw [if_neg hb'] at hsj
            cases hsj
            exact keyedObj_IdKeyed hsen surfaceMaterialToJson

/-- The volume Rep that encoding the single witness entry produces. -/
def wVolRep : VolumeRep :=
  ⟨1, "", [(2, ⟨2, [(16, .proto)], [], none⟩)], [], none⟩

/-- The witness maps: one proto sensitive under volume 1, layer 2. -/
def wMaps : DetectorMaterialMaps :=
  ([(⟨1, 0, 2, 0, 16⟩, .proto)], [])

/-- Witness for C2 at the concrete witness maps. -/
theorem encode_deterministic_witness :
    IdKeyed (volumesFields (materialMapsToJson wMaps)) ∧
    sectionIdKeyed laykey (volumeRepToJson wVolRep) :=
  ⟨(encode_deterministic wMaps).2.1,
    ((encode_deterministic wMaps).2.2 (natToKey 1, volumeRepToJson wVolRep)
      (List.mem_singleton.mpr rfl)).2.1⟩

/-! ## Claim C5: GeometryID collisions -/

theorem insertChecked_mem {m : List (GeometryID × MaterialDesc)} {id : GeometryID}
    (h : id ∈ m.map Prod.fst) (d : MaterialDesc) :
    insertChecked m id d = .error .geometryIdCollision := by
  rw [insertChecked, if_pos]
  rw [List.any_eq_true]
  obtain ⟨p, hp, hpk⟩ := List.mem_map.mp h
  exact ⟨p, hp, by rw [beq_iff_eq]; exact hpk⟩

theorem insertChecked_not_mem {m : List (GeometryID × MaterialDesc)} {id : GeometryID}
    (h : id ∉ m.map Prod.fst) (d : MaterialDesc) :
    insertChecked m id d = .ok (m ++ [(id, d)]) := by
  rw [insertChecked, if_neg]
  rw [List.any_eq_true]
  rintro ⟨p, hp, hpk⟩
  rw [beq_iff_eq] at hpk
  exact h (List.mem_map.mpr ⟨p, hp, hpk⟩)

theorem insertAllChecked_ok (es acc : List (GeometryID × MaterialDesc))
    (hnd : (((acc ++ es)).map Prod.fst).Nodup) :
    insertAllChecked es acc = .ok (acc ++ es) := by
  induction es generalizing acc with
  | nil => simp [insertAllChecked]
  | cons e rest ih =>
    obtain ⟨ek, ed⟩ := e
    have hek : ek ∉ acc.map Prod.fst := by
      rw [List.map_append, List.nodup_append] at hnd
      intro hmem
      exact hnd.2.2 hmem (by simp)
    rw [insertAllChecked, insertChecked_not_mem hek]
    have heq : acc ++ (ek, ed) :: rest = (acc ++ [(ek, ed)]) ++ rest := by simp
    rw [heq] at hnd ⊢
    exact ih (acc ++ [(ek, ed)]) hnd

theorem insertAllChecked_err (es acc : List (GeometryID × MaterialDesc))
    (hacc : (acc.map Prod.fst).Nodup)
    (hnd : ¬ ((acc ++ es).map Prod.fst).Nodup) :
    insertAllChecked es acc = .error .geometryIdCollision := by
  induction es generalizing acc with
  | nil => simp at hnd; exact absurd hacc hnd
  | cons e rest ih =>
    obtain ⟨ek, ed⟩ := e
    by_cases hek : ek ∈ acc.map Prod.fst
    · rw [insertAllChecked, insertChecked_mem hek]
    · rw [insertAllChecked, insertChecked_not_mem hek]
      refine ih (acc ++ [(ek, ed)]) ?_ ?_
      · rw [List.map_append, List.nodup_append]
        refine ⟨hacc, List.nodup_singleton _, ?_⟩
        intro x hx hx'
        simp at hx'
        subst hx'
        exact hek hx
      · intro hcon
        apply hnd
        have : acc ++ (ek, ed) :: rest = (acc ++ [(ek, ed)]) ++ rest := by simp
        rw [this]
        exact hcon

/-- C5: if the collected entries of a document contain two identical
reconstructed `GeometryID`s, decode fails with `GeometryIdCollision`; and a
successful decode returns exactly the collected entries, whose ids are all
distinct — no entry is ever silently overwritten, and a failure leaves the
caller with no partial result (the error is the entire outcome). -/
theorem jsonToMaterialMaps_collect (doc : Json)
    {ses ves : List (GeometryID × MaterialDesc)}
    (hcol : collectMaps doc = .ok (ses, ves)) :
    jsonToMaterialMaps doc =
      (match insertAllChecked ses [], insertAllChecked ves [] with
      | .ok smap, .ok vmap => .ok (smap, vmap)
      | .error e, _ => .error e
      | .ok _, .error e => .error e) := by
  rw [jsonToMaterialMaps, hcol]

theorem geometry_id_collision (doc : Json)
    (ses ves : List (GeometryID × MaterialDesc))
    (hcol : collectMaps doc = .ok (ses, ves)) :
    ((¬ (ses.map Prod.fst).Nodup ∨ ¬ (ves.map Prod.fst).Nodup) →
      jsonToMaterialMaps doc = .error .geometryIdCollision) ∧
    (∀ maps : DetectorMaterialMaps, jsonToMaterialMaps doc = .ok maps →
      maps = (ses, ves) ∧ (ses.map Prod.fst).Nodup ∧ (ves.map Prod.fst).Nodup) := by
  constructor
  · intro hdup
    rw [jsonToMaterialMaps_collect doc hcol]
    rcases hdup with h | h
    · rw [insertAllChecked_err ses [] List.nodup_nil (by simpa using h)]
    · by_cases hs : (ses.map Prod.fst).Nodup
      · rw [insertAllChecked_ok ses [] (by simpa using hs),
          insertAllChecked_err ves [] List.nodup_nil (by simpa using h)]
      · rw [insertAllChecked_err ses [] List.nodup_nil (by simpa using hs)]
  · intro maps hmaps
    rw [jsonToMaterialMaps_collect doc hcol] at hmaps
    by_cases hs : (ses.map Prod.fst).Nodup
    · by_cases hv : (ves.map Prod.fst).Nodup
      · rw [insertAllChecked_ok ses [] (by simpa using hs),
          insertAllChecked_ok ves [] (by simpa using hv)] at hmaps
        have h2 : (Except.ok (ses, ves) : Except ConvErr DetectorMaterialMaps) =
            .ok maps := by simpa using hmaps
        cases h2
        exact ⟨rfl, hs, hv⟩
      · rw [insertAllChecked_ok ses [] (by simpa using hs),
          insertAllChecked_err ves [] List.nodup_nil (by simpa using hv)] at hmaps
        have h2 : (Except.error .geometryIdCollision :
            Except ConvErr DetectorMaterialMaps) = .ok maps := hmaps
        cases h2
    · rw [insertAllChecked_err ses [] List.nodup_nil (by simpa using hs)] at hmaps
      have h2 : (Except.error .geometryIdCollision :
          Except ConvErr DetectorMaterialMaps) = .ok maps := hmaps
      cases h2

/-- A minimal proto material entry. -/
def protoEntry : Json := .obj [(typekey, .str "proto")]

/-- A document holding two sensitive entries with identical key `"16"`
under volume 1, layer 2. -/
def collisionDoc : Json :=
  .obj [(detkey, .obj [(volkey, .obj [(natToKey 1, .obj [(laykey,
    .obj [(natToKey 2, .obj [(senkey,
      .obj [(natToKey 16, protoEntry), (natToKey 16, protoEntry)])])])])])])]

/-- Witness for C5: the duplicate-key document fails with a collision. -/
theorem geometry_id_collision_witness :
    jsonToMaterialMaps collisionDoc = .error .geometryIdCollision :=
  (geometry_id_collision collisionDoc
    [(⟨1, 0, 2, 0, 16⟩, .proto), (⟨1, 0, 2, 0, 16⟩, .proto)] [] rfl).1
    (Or.inl (by decide))

/-! ## Flattening a Rep tree

The decode of an encoded Rep produces, in traversal order, one entry per
stored material, keyed by the composed `GeometryID`.  These flattening
functions state that order explicitly. -/

/-- Surface entries of one layer Rep (approaches, sensitives, representing)
keyed by composed ids, in document traversal order. -/
def LayerRep.flattenEntries (v l : ℕ) (lr : LayerRep) :
    List (GeometryID × MaterialDesc) :=
  lr.approaches.map (fun p => ((⟨v, 0, l, p.1, 0⟩ : GeometryID), p.2)) ++
    lr.sensitives.map (fun p => ((⟨v, 0, l, 0, p.1⟩ : GeometryID), p.2)) ++
    (match lr.representing with
     | some d => [((⟨v, 0, l, 0, 0⟩ : GeometryID), d)]
     | none => [])

/-- Surface entries of one volume Rep (boundaries, then layer contents). -/
def VolumeRep.flattenSurf (v : ℕ) (vr : VolumeRep) :
    List (GeometryID × MaterialDesc) :=
  vr.boundaries.map (fun p => ((⟨v, p.1, 0, 0, 0⟩ : GeometryID), p.2)) ++
    vr.layers.flatMap (fun q => LayerRep.flattenEntries v q.1 q.2)

/-- Volume material entry of one volume Rep. -/
def VolumeRep.flattenVol (v : ℕ) (vr : VolumeRep) :
    List (GeometryID × MaterialDesc) :=
  match vr.material with
  | some d => [((⟨v, 0, 0, 0, 0⟩ : GeometryID), d)]
  | none => []

/-- All surface entries of a detector Rep. -/
def DetectorRep.flattenSurf (detRep : DetectorRep) :
    List (GeometryID × MaterialDesc) :=
  detRep.volumes.flatMap (fun p => VolumeRep.flattenSurf p.1 p.2)

/-- All volume material entries of a detector Rep. -/
def DetectorRep.flattenVol (detRep : DetectorRep) :
    List (GeometryID × MaterialDesc) :=
  detRep.volumes.flatMap (fun p => VolumeRep.flattenVol p.1 p.2)

theorem layer_worth_false {lr : LayerRep} (h : lr.worth = false) :
    lr.sensitives = [] ∧ lr.approaches = [] ∧ lr.representing = none := by
  rw [LayerRep.worth, Bool.or_eq_false_iff, Bool.or_eq_false_iff] at h
  obtain ⟨⟨h1, h2⟩, h3⟩ := h
  refine ⟨List.length_eq_zero.mp (bne_eq_false_iff_eq.mp h1),
    List.length_eq_zero.mp (bne_eq_false_iff_eq.mp h2),
    Option.not_isSome_iff_eq_none.mp ?_⟩
  rw [h3]
  exact Bool.false_ne_true

theorem volume_worth_false {vr : VolumeRep} (h : vr.worth = false) :
    vr.layers = [] ∧ vr.boundaries = [] ∧ vr.material = none := by
  rw [VolumeRep.worth, Bool.or_eq_false_iff, Bool.or_eq_false_iff] at h
  obtain ⟨⟨h1, h2⟩, h3⟩ := h
  refine ⟨List.length_eq_zero.mp (bne_eq_false_iff_eq.mp h1),
    List.length_eq_zero.mp (bne_eq_false_iff_eq.mp h2),
    Option.not_isSome_iff_eq_none.mp ?_⟩
  rw [h3]
  exact Bool.false_ne_true

theorem layer_worth_false_flatten {lr : LayerRep} (h : lr.worth = false)
    (v l : ℕ) : lr.flattenEntries v l = [] := by
  obtain ⟨h1, h2, h3⟩ := layer_worth_false h
  rw [LayerRep.flattenEntries, h1, h2, h3]
  rfl

theorem volume_worth_false_flattenSurf {vr : VolumeRep} (h : vr.worth = false)
    (v : ℕ) : vr.flattenSurf v = [] := by
  obtain ⟨h1, h2, _⟩ := volume_worth_false h
  rw [VolumeRep.flattenSurf, h1, h2]
  rfl

theorem volume_worth_false_flattenVol {vr : VolumeRep} (h : vr.worth = false)
    (v : ℕ) : vr.flattenVol v = [] := by
  obtain ⟨_, _, h3⟩ := volume_worth_false h
  rw [VolumeRep.flattenVol, h3]

theorem flatMap_filter_eq {α β : Type} (p : α → Bool) (f : α → List β)
    (l : List α) (h : ∀ x ∈ l, p x = false → f x = []) :
    (l.filter p).flatMap f = l.flatMap f := by
  induction l with
  | nil => rfl
  | cons x rest ih =>
    rw [List.filter_cons]
    by_cases hp : p x = true
    · rw [if_pos hp, List.flatMap_cons, List.flatMap_cons,
        ih (fun y hy => h y (List.mem_cons_of_mem _ hy))]
    · rw [if_neg hp, List.flatMap_cons,
        h x (List.mem_cons_self _ _) (Bool.not_eq_true _ ▸ hp),
        ih (fun y hy => h y (List.mem_cons_of_mem _ hy))]
      rfl

/-! ## Well-formed descriptors inside a Rep -/

/-- Every descriptor referenced by a layer Rep is well-formed. -/
def LayerRep.wfDescs (lr : LayerRep) : Prop :=
  (∀ p ∈ lr.sensitives, p.2.wfb = true) ∧
    (∀ p ∈ lr.approaches, p.2.wfb = true) ∧
    (∀ d, lr.representing = some d → d.wfb = true)

/-- Every descriptor referenced by a volume Rep is well-formed. -/
def VolumeRep.wfDescs (vr : VolumeRep) : Prop :=
  (∀ p ∈ vr.boundaries, p.2.wfb = true) ∧
    (∀ d, vr.material = some d → d.wfb = true) ∧
    ∀ q ∈ vr.layers, q.2.wfDescs

/-- Every descriptor referenced by a detector Rep is well-formed. -/
def DetectorRep.wfDescs (detRep : DetectorRep) : Prop :=
  ∀ p ∈ detRep.volumes, p.2.wfDescs

theorem newLayerRep_wfDescs (l : ℕ) : (newLayerRep l).wfDescs := by
  refine ⟨fun p hp => absurd hp (List.not_mem_nil p),
    fun p hp => absurd hp (List.not_mem_nil p), fun d hd => ?_⟩
  cases hd

theorem newVolumeRep_wfDescs (v : ℕ) : (newVolumeRep v).wfDescs := by
  refine ⟨fun p hp => absurd hp (List.not_mem_nil p), fun d hd => ?_,
    fun q hq => absurd hq (List.not_mem_nil q)⟩
  cases hd

theorem insertRep_wf_of {α : Type} (k : ℕ) (d : α) (f : α → α) (l : List (ℕ × α))
    (P : α → Prop) (hl : ∀ p ∈ l, P p.2) (hf : ∀ v : α, P v → P (f v)) (hd : P d) :
    ∀ p ∈ insertRep k d f l, P p.2 := by
  intro p hp
  rcases insertRep_mem k d f l p hp with hp' | ⟨v0, rfl, hv0⟩
  · exact hl p hp'
  · rcases hv0 with rfl | hv0'
    · exact hf _ hd
    · exact hf _ (hl (k, v0) hv0')

theorem updLayer_wfDescs (vr : VolumeRep) (l : ℕ) (f : LayerRep → LayerRep)
    (hf : ∀ lr : LayerRep, lr.wfDescs → (f lr).wfDescs)
    (h : vr.wfDescs) : (updLayer vr l f).wfDescs := by
  obtain ⟨h1, h2, h3⟩ := h
  refine ⟨h1, h2, ?_⟩
  exact insertRep_wf_of l (newLayerRep l) f vr.layers LayerRep.wfDescs h3 hf
    (newLayerRep_wfDescs l)

theorem updVolume_wfDescs (detRep : DetectorRep) (v : ℕ) (f : VolumeRep → VolumeRep)
    (hf : ∀ vr : VolumeRep, vr.wfDescs → (f vr).wfDescs)
    (h : detRep.wfDescs) : (updVolume detRep v f).wfDescs :=
  insertRep_wf_of v (newVolumeRep v) f detRep.volumes VolumeRep.wfDescs h hf
    (newVolumeRep_wfDescs v)

theorem addSurfaceToRep_wfDescs (detRep : DetectorRep) (id : GeometryID)
    (m : MaterialDesc) (hm : m.wfb = true) (h : detRep.wfDescs) :
    (addSurfaceToRep detRep id m).wfDescs := by
  rw [addSurfaceToRep]
  by_cases hs : id.sen ≠ 0
  · rw [if_pos hs]
    refine updVolume_wfDescs _ _ _ (fun vr hvr => ?_) h
    refine updLayer_wfDescs _ _ _ (fun lr hlr => ?_) hvr
    refine ⟨?_, hlr.2.1, hlr.2.2⟩
    exact insertRep_wf_of _ m _ lr.sensitives (fun x => x.wfb = true) hlr.1
      (fun _ _ => hm) hm
  · rw [if_neg hs]
    by_cases ha : id.app ≠ 0
    · rw [if_pos ha]
      refine updVolume_wfDescs _ _ _ (fun vr hvr => ?_) h
      refine updLayer_wfDescs _ _ _ (fun lr hlr => ?_) hvr
      refine ⟨hlr.1, ?_, hlr.2.2⟩
      exact insertRep_wf_of _ m _ lr.approaches (fun x => x.wfb = true) hlr.2.1
        (fun _ _ => hm) hm
    · rw [if_neg ha]
      by_cases hb : id.bou ≠ 0
      · rw [if_pos hb]
        refine updVolume_wfDescs _ _ _ (fun vr hvr => ?_) h
        refine ⟨?_, hvr.2.1, hvr.2.2⟩
        exact insertRep_wf_of _ m _ vr.boundaries (fun x => x.wfb = true) hvr.1
          (fun _ _ => hm) hm
      · rw [if_neg hb]
        by_cases hl : id.lay ≠ 0
        · rw [if_pos hl]
          refine updVolume_wfDescs _ _ _ (fun vr hvr => ?_) h
          refine updLayer_wfDescs _ _ _ (fun lr hlr => ?_) hvr
          refine ⟨hlr.1, hlr.2.1, ?_⟩
          intro d hd
          cases hd
          exact hm
        · rw [if_neg hl]
          exact h

theorem addVolumeToRep_wfDescs (detRep : DetectorRep) (id : GeometryID)
    (m : MaterialDesc) (hm : m.wfb = true) (h : detRep.wfDescs) :
    (addVolumeToRep detRep id m).wfDescs := by
  refine updVolume_wfDescs _ _ _ (fun vr hvr => ?_) h
  refine ⟨hvr.1, ?_, hvr.2.2⟩
  intro d hd
  cases hd
  exact hm

theorem mapsToDetectorRep_wfDescs (maps : DetectorMaterialMaps)
    (hs : ∀ p ∈ maps.1, p.2.wfb = true) (hv : ∀ p ∈ maps.2, p.2.wfb = true) :
    (mapsToDetectorRep maps).wfDescs := by
  rw [mapsToDetectorRep]
  have base : (DetectorRep.mk []).wfDescs := fun p hp => absurd hp (List.not_mem_nil p)
  have hsurf : ∀ (es : List (GeometryID × MaterialDesc)),
      (∀ p ∈ es, p.2.wfb = true) → ∀ acc : DetectorRep, acc.wfDescs →
      (es.foldl (fun r p => addSurfaceToRep r p.1 p.2) acc).wfDescs := by
    intro es
    induction es with
    | nil => intro _ acc h; exact h
    | cons e rest ih =>
      intro hes acc h
      exact ih (fun p hp => hes p (List.mem_cons_of_mem _ hp)) _
        (addSurfaceToRep_wfDescs _ _ _ (hes e (List.mem_cons_self _ _)) h)
  have hvol : ∀ (es : List (GeometryID × MaterialDesc)),
      (∀ p ∈ es, p.2.wfb = true) → ∀ acc : DetectorRep, acc.wfDescs →
      (es.foldl (fun r p => addVolumeToRep r p.1 p.2) acc).wfDescs := by
    intro es
    induction es with
    | nil => intro _ acc h; exact h
    | cons e rest ih =>
      intro hes acc h
      exact ih (fun p hp => hes p (List.mem_cons_of_mem _ hp)) _
        (addVolumeToRep_wfDescs _ _ _ (hes e (List.mem_cons_self _ _)) h)
  exact hvol _ hv _ (hsurf _ hs _ base)

/-! ## Decode inverts encode, level by level -/

theorem collectKeyed_keyedObj (mkId : ℕ → GeometryID) (m : SurfaceMaterialRep)
    (hwf : ∀ p ∈ m, p.2.wfb = true) :
    collectKeyed mkId (m.map (fun p => (natToKey p.1, surfaceMaterialToJson p.2))) =
      .ok (m.map (fun p => (mkId p.1, p.2))) := by
  induction m with
  | nil => rfl
  | cons p rest ih =>
    obtain ⟨k, d⟩ := p
    simp only [List.map_cons, collectKeyed, keyToNat_natToKey,
      jsonToSurfaceMaterial_surfaceMaterialToJson d (hwf (k, d) (List.mem_cons_self _ _)),
      ih (fun q hq => hwf q (List.mem_cons_of_mem _ hq))]

theorem jlookup_layerRep_repkey (lr : LayerRep) :
    jlookup repkey (objFields (layerRepToJson lr)) =
      lr.representing.map surfaceMaterialToJson := by
  show jlookup repkey (_ ++ _ ++ _) = _
  rw [List.append_assoc, jlookup_append_none (jlookup_optField_ne (by decide) _),
    jlookup_append_none (jlookup_optField_ne (by decide) _), jlookup_optField_eq]

theorem readSection_app_layer (v l : ℕ) (lr : LayerRep)
    (happ : ∀ p ∈ lr.approaches, p.2.wfb = true) :
    readSection appkey (fun a => ⟨v, 0, l, a, 0⟩) (objFields (layerRepToJson lr)) =
      .ok (lr.approaches.map (fun p => ((⟨v, 0, l, p.1, 0⟩ : GeometryID), p.2))) := by
  rw [readSection, jlookup_layerRep_appkey]
  by_cases h : lr.approaches = []
  · rw [if_pos h, h]
    rfl
  · rw [if_neg h]
    exact collectKeyed_keyedObj (fun a => ⟨v, 0, l, a, 0⟩) lr.approaches happ

theorem readSection_sen_layer (v l : ℕ) (lr : LayerRep)
    (hsen : ∀ p ∈ lr.sensitives, p.2.wfb = true) :
    readSection senkey (fun s => ⟨v, 0, l, 0, s⟩) (objFields (layerRepToJson lr)) =
      .ok (lr.sensitives.map (fun p => ((⟨v, 0, l, 0, p.1⟩ : GeometryID), p.2))) := by
  rw [readSection, jlookup_layerRep_senkey]
  by_cases h : lr.sensitives = []
  · rw [if_pos h, h]
    rfl
  · rw [if_neg h]
    exact collectKeyed_keyedObj (fun s => ⟨v, 0, l, 0, s⟩) lr.sensitives hsen

theorem readOptEntry_layer_rep (v l : ℕ) (lr : LayerRep)
    (hrep : ∀ d, lr.representing = some d → d.wfb = true) :
    readOptEntry repkey ⟨v, 0, l, 0, 0⟩ (objFields (layerRepToJson lr)) =
      .ok (match lr.representing with
        | some d => [((⟨v, 0, l, 0, 0⟩ : GeometryID), d)]
        | none => []) := by
  rw [readOptEntry, jlookup_layerRep_repkey]
  cases hm : lr.representing with
  | none => rfl
  | some d =>
    simp only [Option.map_some',
      jsonToSurfaceMaterial_surfaceMaterialToJson d (hrep d hm)]
    rfl

theorem collectLayer_layerRepToJson (v l : ℕ) (lr : LayerRep) (hwf : lr.wfDescs) :
    collectLayer v l (layerRepToJson lr) = .ok (lr.flattenEntries v l) := by
  obtain ⟨hsen, happ, hrep⟩ := hwf
  have hstep : collectLayer v l (layerRepToJson lr) =
      collectLayer v l (.obj (objFields (layerRepToJson lr))) := rfl
  rw [hstep, collectLayer, readSection_app_layer v l lr happ,
    readSection_sen_layer v l lr hsen, readOptEntry_layer_rep v l lr hrep]
  rfl

theorem collectLayers_keyedObj (v : ℕ) (ls : List (ℕ × LayerRep))
    (hwf : ∀ q ∈ ls, q.2.wfDescs) :
    collectLayers v (ls.map (fun q => (natToKey q.1, layerRepToJson q.2))) =
      .ok (ls.flatMap (fun q => LayerRep.flattenEntries v q.1 q.2)) := by
  induction ls with
  | nil => rfl
  | cons q rest ih =>
    obtain ⟨l, lr⟩ := q
    simp only [List.map_cons, collectLayers, keyToNat_natToKey,
      collectLayer_layerRepToJson v l lr (hwf (l, lr) (List.mem_cons_self _ _)),
      ih (fun p hp => hwf p (List.mem_cons_of_mem _ hp)), List.flatMap_cons]

theorem readLayersSection_volume (v : ℕ) (vr : VolumeRep)
    (hwf : ∀ q ∈ vr.layers, q.2.wfDescs) :
    readLayersSection v (objFields (volumeRepToJson vr)) =
      .ok (vr.layers.flatMap (fun q => LayerRep.flattenEntries v q.1 q.2)) := by
  have hfl : vr.worthLayers.flatMap (fun q => LayerRep.flattenEntries v q.1 q.2) =
      vr.layers.flatMap (fun q => LayerRep.flattenEntries v q.1 q.2) :=
    flatMap_filter_eq _ _ vr.layers
      (fun q _ hw => layer_worth_false_flatten hw v q.1)
  rw [readLayersSection, jlookup_volumeRep_laykey]
  by_cases h : vr.worthLayers.isEmpty
  · rw [if_pos h]
    have hemp : vr.worthLayers = [] := List.isEmpty_iff.mp h
    rw [← hfl, hemp]
    rfl
  · rw [if_neg h]
    show collectLayers v
        (vr.worthLayers.map (fun q => (natToKey q.1, layerRepToJson q.2))) =
      .ok (vr.layers.flatMap (fun q => LayerRep.flattenEntries v q.1 q.2))
    rw [collectLayers_keyedObj v vr.worthLayers
      (fun q hq => hwf q (List.mem_of_mem_filter hq)), hfl]

theorem jlookup_volumeRep_matkey (vr : VolumeRep) :
    jlookup matkey (objFields (volumeRepToJson vr)) =
      vr.material.map surfaceMaterialToJson := by
  show jlookup matkey ([(namekey, .str vr.volumeName)] ++ _ ++ _ ++ _) = _
  rw [List.append_assoc, List.append_assoc,
    jlookup_append_none (jlookup_single_ne (by decide) _),
    jlookup_append_none (jlookup_optField_ne (by decide) _),
    jlookup_append_none (jlookup_optField_ne (by decide) _),
    jlookup_optField_eq]

theorem readSection_bou_volume (v : ℕ) (vr : VolumeRep)
    (hbou : ∀ p ∈ vr.boundaries, p.2.wfb = true) :
    readSection boukey (fun b => ⟨v, b, 0, 0, 0⟩) (objFields (volumeRepToJson vr)) =
      .ok (vr.boundaries.map (fun p => ((⟨v, p.1, 0, 0, 0⟩ : GeometryID), p.2))) := by
  rw [readSection, jlookup_volumeRep_boukey]
  by_cases h : vr.boundaries = []
  · rw [if_pos h, h]
    rfl
  · rw [if_neg h]
    exact collectKeyed_keyedObj (fun b => ⟨v, b, 0, 0, 0⟩) vr.boundaries hbou

theorem readOptEntry_volume_mat (v : ℕ) (vr : VolumeRep)
    (hmat : ∀ d, vr.material = some d → d.wfb = true) :
    readOptEntry matkey ⟨v, 0, 0, 0, 0⟩ (objFields (volumeRepToJson vr)) =
      .ok (vr.flattenVol v) := by
  rw [readOptEntry, jlookup_volumeRep_matkey, VolumeRep.flattenVol]
  cases hm : vr.material with
  | none => rfl
  | some d =>
    simp only [Option.map_some',
      jsonToSurfaceMaterial_surfaceMaterialToJson d (hmat d hm)]
    rfl

theorem collectVolume_volumeRepToJson (v : ℕ) (vr : VolumeRep) (hwf : vr.wfDescs) :
    collectVolume v (volumeRepToJson vr) = .ok (vr.flattenSurf v, vr.flattenVol v) := by
  obtain ⟨hbou, hmat, hlay⟩ := hwf
  have hstep : collectVolume v (volumeRepToJson vr) =
      collectVolume v (.obj (objFields (volumeRepToJson vr))) := rfl
  rw [hstep, collectVolume, readSection_bou_volume v vr hbou,
    readLayersSection_volume v vr hlay, readOptEntry_volume_mat v vr hmat]
  rfl

theorem collectVolumes_keyedObj (vs : List (ℕ × VolumeRep))
    (hwf : ∀ p ∈ vs, p.2.wfDescs) :
    collectVolumes (vs.map (fun p => (natToKey p.1, volumeRepToJson p.2))) =
      .ok (vs.flatMap (fun p => VolumeRep.flattenSurf p.1 p.2),
        vs.flatMap (fun p => VolumeRep.flattenVol p.1 p.2)) := by
  induction vs with
  | nil => rfl
  | cons p rest ih =>
    obtain ⟨v, vr⟩ := p
    simp only [List.map_cons, collectVolumes, keyToNat_natToKey,
      collectVolume_volumeRepToJson v vr (hwf (v, vr) (List.mem_cons_self _ _)),
      ih (fun q hq => hwf q (List.mem_cons_of_mem _ hq)), List.flatMap_cons]

theorem collectMaps_detectorRepToJson (detRep : DetectorRep)
    (hwf : detRep.wfDescs) :
    collectMaps (detectorRepToJson detRep) =
      .ok (detRep.flattenSurf, detRep.flattenVol) := by
  have hstep : collectMaps (detectorRepToJson detRep) =
      collectVolumes ((detRep.volumes.filter (fun p => p.2.worth)).map
        (fun p => (natToKey p.1, volumeRepToJson p.2))) := rfl
  rw [hstep, collectVolumes_keyedObj _
    (fun p hp => hwf p (List.mem_of_mem_filter hp)),
    flatMap_filter_eq _ _ detRep.volumes
      (fun p _ hw => volume_worth_false_flattenSurf hw p.1),
    flatMap_filter_eq _ _ detRep.volumes
      (fun p _ hw => volume_worth_false_flattenVol hw p.1)]
  rfl

/-! ## Permutation bookkeeping for Rep insertion -/

theorem insertRep_flatMap_perm {α β : Type} (k : ℕ) (d : α) (f : α → α)
    (F : ℕ → α → List β) (g : List β) :
    ∀ l : List (ℕ × α), keySorted l →
      (k ∉ l.map Prod.fst → (F k (f d)).Perm g) →
      (∀ v0 : α, (k, v0) ∈ l → (F k (f v0)).Perm (g ++ F k v0)) →
      ((insertRep k d f l).flatMap (fun p => F p.1 p.2)).Perm
        (g ++ l.flatMap (fun p => F p.1 p.2)) := by
  intro l
  induction l with
  | nil =>
    intro _ habs _
    simp only [insertRep, List.flatMap_cons, List.flatMap_nil, List.append_nil]
    exact habs (by simp)
  | cons q rest ih =>
    obtain ⟨qk, qv⟩ := q
    intro hsor habs hupd
    rw [keySorted, List.pairwise_cons] at hsor
    obtain ⟨hq, hrest⟩ := hsor
    rw [insertRep]
    by_cases h1 : k < qk
    · rw [if_pos h1]
      have hknotin : k ∉ ((qk, qv) :: rest).map Prod.fst := by
        simp only [List.map_cons, List.mem_cons]
        rintro (rfl | hk)
        · omega
        · obtain ⟨p, hp, hpk⟩ := List.mem_map.mp hk
          have := hq p hp
          omega
      simp only [List.flatMap_cons]
      exact (habs hknotin).append_right _
    · rw [if_neg h1]
      by_cases h2 : k = qk
      · rw [if_pos h2]
        subst h2
        simp only [List.flatMap_cons]
        have h3 := (hupd qv (List.mem_cons_self _ _)).append_right
          (rest.flatMap (fun p => F p.1 p.2))
        rw [List.append_assoc] at h3
        exact h3
      · rw [if_neg h2]
        simp only [List.flatMap_cons]
        have habs' : k ∉ rest.map Prod.fst → (F k (f d)).Perm g := by
          intro hk
          refine habs ?_
          simp only [List.map_cons, List.mem_cons]
          rintro (rfl | hmem)
          · exact h2 rfl
          · exact hk hmem
        have hupd' : ∀ v0 : α, (k, v0) ∈ rest → (F k (f v0)).Perm (g ++ F k v0) :=
          fun v0 hv0 => hupd v0 (List.mem_cons_of_mem _ hv0)
        have hih := (ih hrest habs' hupd').append_left (F qk qv)
        exact hih.trans (List.perm_append_comm_assoc _ _ _)

theorem insertRep_map_perm_absent {α β : Type} (k : ℕ) (d : α) (f : α → α)
    (G : ℕ × α → β) :
    ∀ l : List (ℕ × α), keySorted l → k ∉ l.map Prod.fst →
      ((insertRep k d f l).map G).Perm (G (k, f d) :: l.map G) := by
  intro l
  induction l with
  | nil =>
    intro _ _
    simp [insertRep]
  | cons q rest ih =>
    obtain ⟨qk, qv⟩ := q
    intro hsor hk
    rw [keySorted, List.pairwise_cons] at hsor
    obtain ⟨hq, hrest⟩ := hsor
    have hk1 : k ≠ qk := by
      intro h
      exact hk (by simp [h])
    have hk2 : k ∉ rest.map Prod.fst := by
      intro h
      exact hk (by simp [h])
    rw [insertRep]
    by_cases h1 : k < qk
    · rw [if_pos h1]
      simp only [List.map_cons]
      exact List.Perm.refl _
    · rw [if_neg h1, if_neg hk1]
      simp only [List.map_cons]
      have := (ih hrest hk2).cons (G (qk, qv))
      exact this.trans (List.Perm.swap _ _ _)

/-! ## Valid geometry ids

Modelled from the spec: a surface `GeometryID` carries exactly one surface
kind — sensitive, approach, boundary or representing (layer) — with the
unused fields zero; a volume `GeometryID` carries only the volume field. -/

/-- The id packs a single surface slot. -/
def ValidSurfaceId (id : GeometryID) : Prop :=
  (id.sen ≠ 0 ∧ id.bou = 0 ∧ id.app = 0) ∨
    (id.sen = 0 ∧ id.app ≠ 0 ∧ id.bou = 0) ∨
    (id.sen = 0 ∧ id.app = 0 ∧ id.bou ≠ 0 ∧ id.lay = 0) ∨
    (id.sen = 0 ∧ id.app = 0 ∧ id.bou = 0 ∧ id.lay ≠ 0)

/-- The id packs only the volume field. -/
def ValidVolumeId (id : GeometryID) : Prop :=
  id.bou = 0 ∧ id.lay = 0 ∧ id.app = 0 ∧ id.sen = 0

/-! Membership of Rep contents in the flattened entry list. -/

theorem flattenEntries_mem_sen {lr : LayerRep} {s : ℕ} {d : MaterialDesc}
    (hs : (s, d) ∈ lr.sensitives) (v l : ℕ) :
    ((⟨v, 0, l, 0, s⟩ : GeometryID), d) ∈ lr.flattenEntries v l := by
  rw [LayerRep.flattenEntries]
  refine List.mem_append.mpr (Or.inl (List.mem_append.mpr (Or.inr ?_)))
  exact List.mem_map.mpr ⟨(s, d), hs, rfl⟩

theorem flattenEntries_mem_app {lr : LayerRep} {a : ℕ} {d : MaterialDesc}
    (ha : (a, d) ∈ lr.approaches) (v l : ℕ) :
    ((⟨v, 0, l, a, 0⟩ : GeometryID), d) ∈ lr.flattenEntries v l := by
  rw [LayerRep.flattenEntries]
  refine List.mem_append.mpr (Or.inl (List.mem_append.mpr (Or.inl ?_)))
  exact List.mem_map.mpr ⟨(a, d), ha, rfl⟩

theorem flattenEntries_mem_rep {lr : LayerRep} {d : MaterialDesc}
    (hr : lr.representing = some d) (v l : ℕ) :
    ((⟨v, 0, l, 0, 0⟩ : GeometryID), d) ∈ lr.flattenEntries v l := by
  rw [LayerRep.flattenEntries, hr]
  exact List.mem_append.mpr (Or.inr (List.mem_singleton.mpr rfl))

theorem flattenSurf_mem_layer {vr : VolumeRep} {l : ℕ} {lr : LayerRep}
    (hl : (l, lr) ∈ vr.layers) {e : GeometryID × MaterialDesc} (v : ℕ)
    (he : e ∈ lr.flattenEntries v l) : e ∈ vr.flattenSurf v := by
  rw [VolumeRep.flattenSurf]
  refine List.mem_append.mpr (Or.inr ?_)
  exact List.mem_flatMap.mpr ⟨(l, lr), hl, he⟩

theorem flattenSurf_mem_bou {vr : VolumeRep} {b : ℕ} {d : MaterialDesc}
    (hb : (b, d) ∈ vr.boundaries) (v : ℕ) :
    ((⟨v, b, 0, 0, 0⟩ : GeometryID), d) ∈ vr.flattenSurf v := by
  rw [VolumeRep.flattenSurf]
  refine List.mem_append.mpr (Or.inl ?_)
  exact List.mem_map.mpr ⟨(b, d), hb, rfl⟩

theorem detFlattenSurf_mem {detRep : DetectorRep} {v : ℕ} {vr : VolumeRep}
    (hv : (v, vr) ∈ detRep.volumes) {e : GeometryID × MaterialDesc}
    (he : e ∈ vr.flattenSurf v) : e ∈ detRep.flattenSurf := by
  rw [DetectorRep.flattenSurf]
  exact List.mem_flatMap.mpr ⟨(v, vr), hv, he⟩

theorem detFlattenVol_mem {detRep : DetectorRep} {v : ℕ} {vr : VolumeRep}
    (hv : (v, vr) ∈ detRep.volumes) {d : MaterialDesc}
    (hm : vr.material = some d) :
    ((⟨v, 0, 0, 0, 0⟩ : GeometryID), d) ∈ detRep.flattenVol := by
  rw [DetectorRep.flattenVol]
  refine List.mem_flatMap.mpr ⟨(v, vr), hv, ?_⟩
  rw [VolumeRep.flattenVol, hm]
  exact List.mem_singleton.mpr rfl

theorem updVolume_flattenSurf_perm (detRep : DetectorRep) (v : ℕ)
    (f : VolumeRep → VolumeRep) (g : List (GeometryID × MaterialDesc))
    (hsor : keySorted detRep.volumes)
    (habs : (VolumeRep.flattenSurf v (f (newVolumeRep v))).Perm g)
    (hupd : ∀ vr0 : VolumeRep, (v, vr0) ∈ detRep.volumes →
      (VolumeRep.flattenSurf v (f vr0)).Perm (g ++ VolumeRep.flattenSurf v vr0)) :
    ((updVolume detRep v f).flattenSurf).Perm (g ++ detRep.flattenSurf) :=
  insertRep_flatMap_perm v (newVolumeRep v) f
    (fun v' vr => VolumeRep.flattenSurf v' vr) g detRep.volumes hsor
    (fun _ => habs) hupd

theorem updLayer_flattenSurf_perm (vr0 : VolumeRep) (v l : ℕ)
    (fupd : LayerRep → LayerRep) (g : List (GeometryID × MaterialDesc))
    (hsor : keySorted vr0.layers)
    (habs : (LayerRep.flattenEntries v l (fupd (newLayerRep l))).Perm g)
    (hupd : ∀ lr0 : LayerRep, (l, lr0) ∈ vr0.layers →
      (LayerRep.flattenEntries v l (fupd lr0)).Perm
        (g ++ LayerRep.flattenEntries v l lr0)) :
    (VolumeRep.flattenSurf v (updLayer vr0 l fupd)).Perm
      (g ++ VolumeRep.flattenSurf v vr0) := by
  have hinner := insertRep_flatMap_perm l (newLayerRep l) fupd
    (fun l' lr => LayerRep.flattenEntries v l' lr) g vr0.layers hsor
    (fun _ => habs) hupd
  have houter := hinner.append_left
    (vr0.boundaries.map (fun p => ((⟨v, p.1, 0, 0, 0⟩ : GeometryID), p.2)))
  exact houter.trans (List.perm_append_comm_assoc _ _ _)

theorem flattenVol_eq (v : ℕ) (vr : VolumeRep) :
    VolumeRep.flattenVol v vr =
      (match vr.material with
       | some d => [((⟨v, 0, 0, 0, 0⟩ : GeometryID), d)]
       | none => []) := rfl

theorem updVolume_flattenVol_perm (detRep : DetectorRep) (v : ℕ)
    (f : VolumeRep → VolumeRep) (hsor : keySorted detRep.volumes)
    (hmat : ∀ vr : VolumeRep, (f vr).material = vr.material) :
    ((updVolume detRep v f).flattenVol).Perm detRep.flattenVol := by
  have := insertRep_flatMap_perm v (newVolumeRep v) f
    (fun v' vr => VolumeRep.flattenVol v' vr) [] detRep.volumes hsor
    (fun _ => by
      show (VolumeRep.flattenVol v (f (newVolumeRep v))).Perm []
      rw [flattenVol_eq, hmat]
      exact List.Perm.refl _)
    (fun vr0 _ => by
      show (VolumeRep.flattenVol v (f vr0)).Perm ([] ++ VolumeRep.flattenVol v vr0)
      rw [List.nil_append, flattenVol_eq, flattenVol_eq, hmat])
  simpa using this

/-- The layer-level updaters used by the converter leave the volume
material untouched. -/
theorem updLayer_material (vr : VolumeRep) (l : ℕ) (f : LayerRep → LayerRep) :
    (updLayer vr l f).material = vr.material := rfl

theorem addSurface_flattenVol_perm (detRep : DetectorRep) (id : GeometryID)
    (m : MaterialDesc) (hsor : keySorted detRep.volumes) :
    ((addSurfaceToRep detRep id m).flattenVol).Perm detRep.flattenVol := by
  rw [addSurfaceToRep]
  by_cases hs : id.sen ≠ 0
  · rw [if_pos hs]
    exact updVolume_flattenVol_perm _ _ _ hsor (fun vr => rfl)
  · rw [if_neg hs]
    by_cases ha : id.app ≠ 0
    · rw [if_pos ha]
      exact updVolume_flattenVol_perm _ _ _ hsor (fun vr => rfl)
    · rw [if_neg ha]
      by_cases hb : id.bou ≠ 0
      · rw [if_pos hb]
        exact updVolume_flattenVol_perm _ _ _ hsor (fun vr => rfl)
      · rw [if_neg hb]
        by_cases hl : id.lay ≠ 0
        · rw [if_pos hl]
          exact updVolume_flattenVol_perm _ _ _ hsor (fun vr => rfl)
        · rw [if_neg hl]

theorem addVolume_flattenSurf_perm (detRep : DetectorRep) (id : GeometryID)
    (m : MaterialDesc) (hsor : keySorted detRep.volumes) :
    ((addVolumeToRep detRep id m).flattenSurf).Perm detRep.flattenSurf := by
  have := updVolume_flattenSurf_perm detRep id.vol
    (fun vr => { vr with material := some m }) [] hsor
    (List.Perm.refl _) (fun vr0 _ => List.Perm.refl _)
  simpa using this

theorem addVolume_flattenVol_perm (detRep : DetectorRep) (id : GeometryID)
    (m : MaterialDesc) (hsor : keySorted detRep.volumes)
    (hvalid : ValidVolumeId id) (hnotin : id ∉ detRep.flattenVol.map Prod.fst) :
    ((addVolumeToRep detRep id m).flattenVol).Perm ((id, m) :: detRep.flattenVol) := by
  obtain ⟨v, b, l, a, s⟩ := id
  obtain ⟨hb, hl, ha, hs⟩ := hvalid
  dsimp only at hb hl ha hs
  subst hb
  subst hl
  subst ha
  subst hs
  exact insertRep_flatMap_perm v (newVolumeRep v)
    (fun vr => { vr with material := some m })
    (fun v' vr => VolumeRep.flattenVol v' vr)
    [((⟨v, 0, 0, 0, 0⟩ : GeometryID), m)] detRep.volumes hsor
    (fun _ => List.Perm.refl _)
    (fun vr0 hv0 => by
      show (VolumeRep.flattenVol v { vr0 with material := some m }).Perm
        ([((⟨v, 0, 0, 0, 0⟩ : GeometryID), m)] ++ VolumeRep.flattenVol v vr0)
      cases hm : vr0.material with
      | none =>
        rw [flattenVol_eq, flattenVol_eq, hm]
        exact List.Perm.refl _
      | some d =>
        exact absurd (List.mem_map_of_mem Prod.fst (detFlattenVol_mem hv0 hm)) hnotin)

theorem flattenSurf_updLayer_fresh (v l : ℕ) (fupd : LayerRep → LayerRep) :
    (VolumeRep.flattenSurf v (updLayer (newVolumeRep v) l fupd)).Perm
      (LayerRep.flattenEntries v l (fupd (newLayerRep l))) := by
  show ([] ++ ([(l, fupd (newLayerRep l))].flatMap
    (fun q => LayerRep.flattenEntries v q.1 q.2))).Perm _
  simp only [List.nil_append, List.flatMap_cons, List.flatMap_nil, List.append_nil]
  exact List.Perm.refl _

theorem flattenEntries_fresh_sen (v l s : ℕ) (m : MaterialDesc) :
    (LayerRep.flattenEntries v l { newLayerRep l with
      sensitives := insertRep s m (fun _ => m) (newLayerRep l).sensitives }).Perm
      [((⟨v, 0, l, 0, s⟩ : GeometryID), m)] := by
  have h : LayerRep.flattenEntries v l { newLayerRep l with
      sensitives := insertRep s m (fun _ => m) (newLayerRep l).sensitives } =
      [((⟨v, 0, l, 0, s⟩ : GeometryID), m)] := by
    simp [LayerRep.flattenEntries, newLayerRep, insertRep]
  rw [h]

theorem flattenEntries_fresh_app (v l a : ℕ) (m : MaterialDesc) :
    (LayerRep.flattenEntries v l { newLayerRep l with
      approaches := insertRep a m (fun _ => m) (newLayerRep l).approaches }).Perm
      [((⟨v, 0, l, a, 0⟩ : GeometryID), m)] := by
  have h : LayerRep.flattenEntries v l { newLayerRep l with
      approaches := insertRep a m (fun _ => m) (newLayerRep l).approaches } =
      [((⟨v, 0, l, a, 0⟩ : GeometryID), m)] := by
    simp [LayerRep.flattenEntries, newLayerRep, insertRep]
  rw [h]

theorem flattenEntries_fresh_rep (v l : ℕ) (m : MaterialDesc) :
    (LayerRep.flattenEntries v l { newLayerRep l with
      representing := some m }).Perm
      [((⟨v, 0, l, 0, 0⟩ : GeometryID), m)] := by
  have h : LayerRep.flattenEntries v l
      { newLayerRep l with representing := some m } =
      [((⟨v, 0, l, 0, 0⟩ : GeometryID), m)] := by
    simp [LayerRep.flattenEntries, newLayerRep]
  rw [h]

theorem flattenEntries_sen_insert_perm (v l s : ℕ) (m : MaterialDesc)
    (lr0 : LayerRep) (hsor : keySorted lr0.sensitives)
    (hs : s ∉ lr0.sensitives.map Prod.fst) :
    (LayerRep.flattenEntries v l
      { lr0 with sensitives := insertRep s m (fun _ => m) lr0.sensitives }).Perm
      (((⟨v, 0, l, 0, s⟩ : GeometryID), m) :: lr0.flattenEntries v l) := by
  rw [LayerRep.flattenEntries, LayerRep.flattenEntries]
  have h1 := insertRep_map_perm_absent s m (fun _ => m)
    (fun p => ((⟨v, 0, l, 0, p.1⟩ : GeometryID), p.2)) lr0.sensitives hsor hs
  have h2 := (h1.append_left
    (lr0.approaches.map (fun p => ((⟨v, 0, l, p.1, 0⟩ : GeometryID), p.2)))).append_right
    (match lr0.representing with
     | some d => [((⟨v, 0, l, 0, 0⟩ : GeometryID), d)]
     | none => [])
  refine h2.trans ?_
  refine (List.perm_middle.append_right _).trans ?_
  rw [List.cons_append]

theorem flattenEntries_app_insert_perm (v l a : ℕ) (m : MaterialDesc)
    (lr0 : LayerRep) (hsor : keySorted lr0.approaches)
    (ha : a ∉ lr0.approaches.map Prod.fst) :
    (LayerRep.flattenEntries v l
      { lr0 with approaches := insertRep a m (fun _ => m) lr0.approaches }).Perm
      (((⟨v, 0, l, a, 0⟩ : GeometryID), m) :: lr0.flattenEntries v l) := by
  rw [LayerRep.flattenEntries, LayerRep.flattenEntries]
  have h1 := insertRep_map_perm_absent a m (fun _ => m)
    (fun p => ((⟨v, 0, l, p.1, 0⟩ : GeometryID), p.2)) lr0.approaches hsor ha
  exact (h1.append_right _).append_right _

theorem flattenEntries_rep_set_perm (v l : ℕ) (m : MaterialDesc)
    (lr0 : LayerRep) (hrep : lr0.representing = none) :
    (LayerRep.flattenEntries v l { lr0 with representing := some m }).Perm
      (((⟨v, 0, l, 0, 0⟩ : GeometryID), m) :: lr0.flattenEntries v l) := by
  rw [LayerRep.flattenEntries, LayerRep.flattenEntries, hrep, List.append_nil]
  exact List.perm_append_comm

theorem flattenSurf_bou_insert_perm (v b : ℕ) (m : MaterialDesc)
    (vr0 : VolumeRep) (hsor : keySorted vr0.boundaries)
    (hb : b ∉ vr0.boundaries.map Prod.fst) :
    (VolumeRep.flattenSurf v
      { vr0 with boundaries := insertRep b m (fun _ => m) vr0.boundaries }).Perm
      (((⟨v, b, 0, 0, 0⟩ : GeometryID), m) :: vr0.flattenSurf v) := by
  rw [VolumeRep.flattenSurf, VolumeRep.flattenSurf]
  have h1 := insertRep_map_perm_absent b m (fun _ => m)
    (fun p => ((⟨v, p.1, 0, 0, 0⟩ : GeometryID), p.2)) vr0.boundaries hsor hb
  exact h1.append_right _

theorem flattenSurf_bou_fresh (v b : ℕ) (m : MaterialDesc) :
    (VolumeRep.flattenSurf v { newVolumeRep v with
      boundaries := insertRep b m (fun _ => m) (newVolumeRep v).boundaries }).Perm
      [((⟨v, b, 0, 0, 0⟩ : GeometryID), m)] := by
  have h : VolumeRep.flattenSurf v { newVolumeRep v with
      boundaries := insertRep b m (fun _ => m) (newVolumeRep v).boundaries } =
      [((⟨v, b, 0, 0, 0⟩ : GeometryID), m)] := by
    simp [VolumeRep.flattenSurf, newVolumeRep, insertRep]
  rw [h]

theorem addSurface_flattenSurf_perm (detRep : DetectorRep) (id : GeometryID)
    (m : MaterialDesc) (hsor : detRep.sortedKeys) (hvalid : ValidSurfaceId id)
    (hnotin : id ∉ detRep.flattenSurf.map Prod.fst) :
    ((addSurfaceToRep detRep id m).flattenSurf).Perm
      ((id, m) :: detRep.flattenSurf) := by
  obtain ⟨v, b, l, a, s⟩ := id
  rcases hvalid with ⟨hs, hb, ha⟩ | ⟨hs, ha, hb⟩ | ⟨hs, ha, hb, hl⟩ | ⟨hs, ha, hb, hl⟩
  · -- sensitive surface
    dsimp only at hs hb ha
    subst hb
    subst ha
    rw [addSurfaceToRep, if_pos hs]
    refine updVolume_flattenSurf_perm detRep v _
      [((⟨v, 0, l, 0, s⟩ : GeometryID), m)] hsor.1 ?_ ?_
    · exact (flattenSurf_updLayer_fresh v l _).trans (flattenEntries_fresh_sen v l s m)
    · intro vr0 hv0
      refine updLayer_flattenSurf_perm vr0 v l _ _ ((hsor.2 (v, vr0) hv0).1)
        (flattenEntries_fresh_sen v l s m) ?_
      intro lr0 hl0
      have hsnot : s ∉ lr0.sensitives.map Prod.fst := by
        intro hmem
        obtain ⟨⟨sk, sd⟩, hp, hpk⟩ := List.mem_map.mp hmem
        dsimp only at hpk
        subst hpk
        exact hnotin (List.mem_map_of_mem Prod.fst (detFlattenSurf_mem hv0
          (flattenSurf_mem_layer hl0 v (flattenEntries_mem_sen hp v l))))
      exact flattenEntries_sen_insert_perm v l s m lr0
        (((hsor.2 (v, vr0) hv0).2.2 (l, lr0) hl0).1) hsnot
  · -- approach surface
    dsimp only at hs ha hb
    subst hs
    subst hb
    rw [addSurfaceToRep, if_neg (fun h => h rfl), if_pos ha]
    refine updVolume_flattenSurf_perm detRep v _
      [((⟨v, 0, l, a, 0⟩ : GeometryID), m)] hsor.1 ?_ ?_
    · exact (flattenSurf_updLayer_fresh v l _).trans (flattenEntries_fresh_app v l a m)
    · intro vr0 hv0
      refine updLayer_flattenSurf_perm vr0 v l _ _ ((hsor.2 (v, vr0) hv0).1)
        (flattenEntries_fresh_app v l a m) ?_
      intro lr0 hl0
      have hanot : a ∉ lr0.approaches.map Prod.fst := by
        intro hmem
        obtain ⟨⟨ak, ad⟩, hp, hpk⟩ := List.mem_map.mp hmem
        dsimp only at hpk
        subst hpk
        exact hnotin (List.mem_map_of_mem Prod.fst (detFlattenSurf_mem hv0
          (flattenSurf_mem_layer hl0 v (flattenEntries_mem_app hp v l))))
      exact flattenEntries_app_insert_perm v l a m lr0
        (((hsor.2 (v, vr0) hv0).2.2 (l, lr0) hl0).2) hanot
  · -- boundary surface
    dsimp only at hs ha hb hl
    subst hs
    subst ha
    subst hl
    rw [addSurfaceToRep, if_neg (fun h => h rfl), if_neg (fun h => h rfl), if_pos hb]
    refine updVolume_flattenSurf_perm detRep v _
      [((⟨v, b, 0, 0, 0⟩ : GeometryID), m)] hsor.1 ?_ ?_
    · exact flattenSurf_bou_fresh v b m
    · intro vr0 hv0
      have hbnot : b ∉ vr0.boundaries.map Prod.fst := by
        intro hmem
        obtain ⟨⟨bk, bd⟩, hp, hpk⟩ := List.mem_map.mp hmem
        dsimp only at hpk
        subst hpk
        exact hnotin (List.mem_map_of_mem Prod.fst (detFlattenSurf_mem hv0
          (flattenSurf_mem_bou hp v)))
      exact flattenSurf_bou_insert_perm v b m vr0 ((hsor.2 (v, vr0) hv0).2.1) hbnot
  · -- representing (layer) surface
    dsimp only at hs ha hb hl
    subst hs
    subst ha
    subst hb
    rw [addSurfaceToRep, if_neg (fun h => h rfl), if_neg (fun h => h rfl),
      if_neg (fun h => h rfl), if_pos hl]
    refine updVolume_flattenSurf_perm detRep v _
      [((⟨v, 0, l, 0, 0⟩ : GeometryID), m)] hsor.1 ?_ ?_
    · exact (flattenSurf_updLayer_fresh v l _).trans (flattenEntries_fresh_rep v l m)
    · intro vr0 hv0
      refine updLayer_flattenSurf_perm vr0 v l _ _ ((hsor.2 (v, vr0) hv0).1)
        (flattenEntries_fresh_rep v l m) ?_
      intro lr0 hl0
      have hrnone : lr0.representing = none := by
        cases hr : lr0.representing with
        | none => rfl
        | some d =>
          exact absurd (List.mem_map_of_mem Prod.fst (detFlattenSurf_mem hv0
            (flattenSurf_mem_layer hl0 v (flattenEntries_mem_rep hr v l)))) hnotin
      exact flattenEntries_rep_set_perm v l m lr0 hrnone

/-! ## Folding the maps into a Rep preserves the entries -/

theorem emptyRep_sortedKeys : (DetectorRep.mk []).sortedKeys :=
  ⟨List.Pairwise.nil, fun p hp => absurd hp (List.not_mem_nil p)⟩

theorem foldSurf_sortedKeys (es : List (GeometryID × MaterialDesc)) :
    ∀ acc : DetectorRep, acc.sortedKeys →
      ((es.foldl (fun r p => addSurfaceToRep r p.1 p.2) acc)).sortedKeys := by
  induction es with
  | nil => intro acc h; exact h
  | cons e rest ih =>
    intro acc h
    exact ih _ (addSurfaceToRep_sortedKeys _ _ _ h)

theorem foldVol_sortedKeys (es : List (GeometryID × MaterialDesc)) :
    ∀ acc : DetectorRep, acc.sortedKeys →
      ((es.foldl (fun r p => addVolumeToRep r p.1 p.2) acc)).sortedKeys := by
  induction es with
  | nil => intro acc h; exact h
  | cons e rest ih =>
    intro acc h
    exact ih _ (addVolumeToRep_sortedKeys _ _ _ h)

theorem foldSurf_flattenSurf_perm (es : List (GeometryID × MaterialDesc)) :
    ∀ acc : DetectorRep, acc.sortedKeys → (∀ p ∈ es, ValidSurfaceId p.1) →
      ((acc.flattenSurf ++ es).map Prod.fst).Nodup →
      ((es.foldl (fun r p => addSurfaceToRep r p.1 p.2) acc).flattenSurf).Perm
        (acc.flattenSurf ++ es) := by
  induction es with
  | nil =>
    intro acc _ _ _
    simp
  | cons e rest ih =>
    intro acc hsor hval hnd
    obtain ⟨eid, ed⟩ := e
    rw [List.foldl_cons]
    have hnotin : eid ∉ acc.flattenSurf.map Prod.fst := by
      rw [List.map_append, List.nodup_append] at hnd
      intro hmem
      exact hnd.2.2 hmem (by simp)
    have hstep := addSurface_flattenSurf_perm acc eid ed hsor
      (hval (eid, ed) (List.mem_cons_self _ _)) hnotin
    have hsor' := addSurfaceToRep_sortedKeys acc eid ed hsor
    have hperm2 : ((addSurfaceToRep acc eid ed).flattenSurf ++ rest).Perm
        (acc.flattenSurf ++ (eid, ed) :: rest) :=
      (hstep.append_right rest).trans List.perm_middle.symm
    have hnd' : (((addSurfaceToRep acc eid ed).flattenSurf ++ rest).map
        Prod.fst).Nodup := ((hperm2.map Prod.fst).nodup_iff).mpr hnd
    have := ih _ hsor' (fun p hp => hval p (List.mem_cons_of_mem _ hp)) hnd'
    exact this.trans hperm2

theorem foldSurf_flattenVol_perm (es : List (GeometryID × MaterialDesc)) :
    ∀ acc : DetectorRep, acc.sortedKeys →
      ((es.foldl (fun r p => addSurfaceToRep r p.1 p.2) acc).flattenVol).Perm
        acc.flattenVol := by
  induction es with
  | nil =>
    intro acc _
    exact List.Perm.refl _
  | cons e rest ih =>
    intro acc hsor
    rw [List.foldl_cons]
    exact (ih _ (addSurfaceToRep_sortedKeys _ _ _ hsor)).trans
      (addSurface_flattenVol_perm acc e.1 e.2 hsor.1)

theorem foldVol_flattenSurf_perm (es : List (GeometryID × MaterialDesc)) :
    ∀ acc : DetectorRep, acc.sortedKeys →
      ((es.foldl (fun r p => addVolumeToRep r p.1 p.2) acc).flattenSurf).Perm
        acc.flattenSurf := by
  induction es with
  | nil =>
    intro acc _
    exact List.Perm.refl _
  | cons e rest ih =>
    intro acc hsor
    rw [List.foldl_cons]
    exact (ih _ (addVolumeToRep_sortedKeys _ _ _ hsor)).trans
      (addVolume_flattenSurf_perm acc e.1 e.2 hsor.1)

theorem foldVol_flattenVol_perm (es : List (GeometryID × MaterialDesc)) :
    ∀ acc : DetectorRep, acc.sortedKeys → (∀ p ∈ es, ValidVolumeId p.1) →
      ((acc.flattenVol ++ es).map Prod.fst).Nodup →
      ((es.foldl (fun r p => addVolumeToRep r p.1 p.2) acc).flattenVol).Perm
        (acc.flattenVol ++ es) := by
  induction es with
  | nil =>
    intro acc _ _ _
    simp
  | cons e rest ih =>
    intro acc hsor hval hnd
    obtain ⟨eid, ed⟩ := e
    rw [List.foldl_cons]
    have hnotin : eid ∉ acc.flattenVol.map Prod.fst := by
      rw [List.map_append, List.nodup_append] at hnd
      intro hmem
      exact hnd.2.2 hmem (by simp)
    have hstep := addVolume_flattenVol_perm acc eid ed hsor.1
      (hval (eid, ed) (List.mem_cons_self _ _)) hnotin
    have hsor' := addVolumeToRep_sortedKeys acc eid ed hsor
    have hperm2 : ((addVolumeToRep acc eid ed).flattenVol ++ rest).Perm
        (acc.flattenVol ++ (eid, ed) :: rest) :=
      (hstep.append_right rest).trans List.perm_middle.symm
    have hnd' : (((addVolumeToRep acc eid ed).flattenVol ++ rest).map
        Prod.fst).Nodup := ((hperm2.map Prod.fst).nodup_iff).mpr hnd
    have := ih _ hsor' (fun p hp => hval p (List.mem_cons_of_mem _ hp)) hnd'
    exact this.trans hperm2

theorem mapsToDetectorRep_flattenSurf_perm (maps : DetectorMaterialMaps)
    (hval : ∀ p ∈ maps.1, ValidSurfaceId p.1)
    (hnd : (maps.1.map Prod.fst).Nodup) :
    ((mapsToDetectorRep maps).flattenSurf).Perm maps.1 := by
  rw [mapsToDetectorRep]
  have h1 := foldSurf_flattenSurf_perm maps.1 ⟨[]⟩ emptyRep_sortedKeys hval
    (by simpa using hnd)
  have h2 := foldVol_flattenSurf_perm maps.2 _
    (foldSurf_sortedKeys maps.1 ⟨[]⟩ emptyRep_sortedKeys)
  exact h2.trans (by simpa using h1)

theorem mapsToDetectorRep_flattenVol_perm (maps : DetectorMaterialMaps)
    (hval : ∀ p ∈ maps.2, ValidVolumeId p.1)
    (hnd : (maps.2.map Prod.fst).Nodup) :
    ((mapsToDetectorRep maps).flattenVol).Perm maps.2 := by
  rw [mapsToDetectorRep]
  have hsor1 := foldSurf_sortedKeys maps.1 ⟨[]⟩ emptyRep_sortedKeys
  have h1 := foldSurf_flattenVol_perm maps.1
  have h1nil : ((maps.1.foldl (fun r p => addSurfaceToRep r p.1 p.2)
      ⟨[]⟩).flattenVol) = [] := List.Perm.eq_nil (h1 ⟨[]⟩ emptyRep_sortedKeys)
  have h2 := foldVol_flattenVol_perm maps.2 _ hsor1 hval (by rw [h1nil]; simpa using hnd)
  rw [h1nil] at h2
  simpa using h2

/-! ## Lookup in flat maps -/

/-- Association-list lookup by `GeometryID`. -/
def lookupId (m : List (GeometryID × MaterialDesc)) (id : GeometryID) :
    Option MaterialDesc :=
  match m with
  | [] => none
  | p :: rest => if p.1 = id then some p.2 else lookupId rest id

theorem lookupId_none_iff {m : List (GeometryID × MaterialDesc)} {id : GeometryID} :
    lookupId m id = none ↔ id ∉ m.map Prod.fst := by
  induction m with
  | nil => simp [lookupId]
  | cons p rest ih =>
    rw [lookupId]
    by_cases hp : p.1 = id
    · rw [if_pos hp]
      simp [hp.symm]
    · rw [if_neg hp]
      rw [ih]
      simp only [List.map_cons, List.mem_cons]
      constructor
      · rintro h (rfl | hmem)
        · exact hp rfl
        · exact h hmem
      · intro h hmem
        exact h (Or.inr hmem)

theorem lookupId_some_iff {m : List (GeometryID × MaterialDesc)}
    (hnd : (m.map Prod.fst).Nodup) {id : GeometryID} {d : MaterialDesc} :
    lookupId m id = some d ↔ (id, d) ∈ m := by
  induction m with
  | nil => simp [lookupId]
  | cons p rest ih =>
    obtain ⟨pk, pd⟩ := p
    rw [List.map_cons, List.nodup_cons] at hnd
    rw [lookupId]
    dsimp only
    by_cases hp : pk = id
    · subst hp
      rw [if_pos rfl]
      constructor
      · intro h
        have h2 := Option.some.inj h
        subst h2
        exact List.mem_cons_self _ _
      · intro h
        rcases List.mem_cons.mp h with h1 | h1
        · have h2 : d = pd := congrArg Prod.snd h1
          rw [h2]
        · exact absurd (List.mem_map_of_mem Prod.fst h1) hnd.1
    · rw [if_neg hp]
      rw [ih hnd.2]
      constructor
      · exact fun h => List.mem_cons_of_mem _ h
      · intro h
        rcases List.mem_cons.mp h with h1 | h1
        · exact absurd (congrArg Prod.fst h1).symm hp
        · exact h1

theorem lookupId_eq_of_perm {m1 m2 : List (GeometryID × MaterialDesc)}
    (hperm : m1.Perm m2) (hnd : (m1.map Prod.fst).Nodup) (id : GeometryID) :
    lookupId m1 id = lookupId m2 id := by
  have hnd2 : (m2.map Prod.fst).Nodup := ((hperm.map Prod.fst).nodup_iff).mp hnd
  cases h : lookupId m1 id with
  | none =>
    symm
    rw [lookupId_none_iff] at h ⊢
    intro hc
    exact h (((hperm.map Prod.fst).mem_iff).mpr hc)
  | some d =>
    symm
    rw [lookupId_some_iff hnd] at h
    rw [lookupId_some_iff hnd2]
    exact hperm.mem_iff.mp h

/-! ## Claim C1: round trip -/

/-- Well-formed material maps: every surface id packs exactly one surface
slot, every volume id only the volume field, ids are pairwise distinct per
map, and every descriptor passes `wfb` (grid dimensions match the axes and
no binned grid has a single total bin). -/
def MapsWF (maps : DetectorMaterialMaps) : Prop :=
  (∀ p ∈ maps.1, ValidSurfaceId p.1 ∧ p.2.wfb = true) ∧
    (maps.1.map Prod.fst).Nodup ∧
    (∀ p ∈ maps.2, ValidVolumeId p.1 ∧ p.2.wfb = true) ∧
    (maps.2.map Prod.fst).Nodup

instance (id : GeometryID) : Decidable (ValidSurfaceId id) := by
  unfold ValidSurfaceId
  infer_instance

instance (id : GeometryID) : Decidable (ValidVolumeId id) := by
  unfold ValidVolumeId
  infer_instance

instance {ε α : Type} [DecidableEq ε] [DecidableEq α] :
    DecidableEq (Except ε α) := fun a b =>
  match a, b with
  | .ok x, .ok y =>
    if h : x = y then .isTrue (by rw [h])
    else .isFalse (fun hc => h (Except.ok.inj hc))
  | .error x, .error y =>
    if h : x = y then .isTrue (by rw [h])
    else .isFalse (fun hc => h (Except.error.inj hc))
  | .ok _, .error _ => .isFalse (fun hc => Except.noConfusion hc)
  | .error _, .ok _ => .isFalse (fun hc => Except.noConfusion hc)

instance (maps : DetectorMaterialMaps) : Decidable (MapsWF maps) := by
  unfold MapsWF
  infer_instance

/-- C1 (amended): for every pair of well-formed material maps, decoding the
encoded document succeeds and returns maps with exactly the same entries
(the same descriptor at every `GeometryID`, and no others). -/
theorem round_trip (maps : DetectorMaterialMaps) (hwf : MapsWF maps) :
    ∃ maps' : DetectorMaterialMaps,
      jsonToMaterialMaps (materialMapsToJson maps) = .ok maps' ∧
      (∀ id, lookupId maps'.1 id = lookupId maps.1 id) ∧
      (∀ id, lookupId maps'.2 id = lookupId maps.2 id) := by
  obtain ⟨hs, hnds, hv, hndv⟩ := hwf
  have hwfd : (mapsToDetectorRep maps).wfDescs :=
    mapsToDetectorRep_wfDescs maps (fun p hp => (hs p hp).2)
      (fun p hp => (hv p hp).2)
  have hcol : collectMaps (materialMapsToJson maps) =
      .ok ((mapsToDetectorRep maps).flattenSurf, (mapsToDetectorRep maps).flattenVol) := by
    rw [materialMapsToJson]
    exact collectMaps_detectorRepToJson _ hwfd
  have hps : ((mapsToDetectorRep maps).flattenSurf).Perm maps.1 :=
    mapsToDetectorRep_flattenSurf_perm maps (fun p hp => (hs p hp).1) hnds
  have hpv : ((mapsToDetectorRep maps).flattenVol).Perm maps.2 :=
    mapsToDetectorRep_flattenVol_perm maps (fun p hp => (hv p hp).1) hndv
  have hndfs : (((mapsToDetectorRep maps).flattenSurf).map Prod.fst).Nodup :=
    ((hps.map Prod.fst).nodup_iff).mpr hnds
  have hndfv : (((mapsToDetectorRep maps).flattenVol).map Prod.fst).Nodup :=
    ((hpv.map Prod.fst).nodup_iff).mpr hndv
  have hok : jsonToMaterialMaps (materialMapsToJson maps) =
      .ok ((mapsToDetectorRep maps).flattenSurf, (mapsToDetectorRep maps).flattenVol) := by
    rw [jsonToMaterialMaps_collect _ hcol,
      insertAllChecked_ok _ [] (by simpa using hndfs),
      insertAllChecked_ok _ [] (by simpa using hndfv)]
    rfl
  exact ⟨((mapsToDetectorRep maps).flattenSurf, (mapsToDetectorRep maps).flattenVol),
    hok, fun id => lookupId_eq_of_perm hps hndfs id,
    fun id => lookupId_eq_of_perm hpv hndfv id⟩

/-- The single cell used in the round-trip counterexample. -/
def cexCell : MaterialCell := ⟨1, 2, 3, 4, 5, 6⟩

/-- A surface map holding one 1-bin binned descriptor. -/
def cexMaps : DetectorMaterialMaps :=
  ([(⟨1, 0, 2, 0, 16⟩, .binned1 (.equidistant 1 0 1) [cexCell])], [])

/-- Counterexample to C1 as stated: a binned descriptor over a single bin
decodes back as a homogeneous descriptor, so the round trip does not
preserve the variant tag. -/
theorem round_trip_counterexample :
    jsonToMaterialMaps (materialMapsToJson cexMaps) =
      .ok ([((⟨1, 0, 2, 0, 16⟩ : GeometryID), .homogeneous cexCell)], []) ∧
    jsonToMaterialMaps (materialMapsToJson cexMaps) ≠ .ok cexMaps := by
  constructor
  · decide
  · decide

/-- Witness for C1 at the concrete witness maps. -/
theorem round_trip_witness :
    ∃ maps' : DetectorMaterialMaps,
      jsonToMaterialMaps (materialMapsToJson wMaps) = .ok maps' ∧
      (∀ id, lookupId maps'.1 id = lookupId wMaps.1 id) ∧
      (∀ id, lookupId maps'.2 id = lookupId wMaps.2 id) :=
  round_trip wMaps (by decide)

/-! ## Claim C3: GeometryID reconstruction on decode -/

/-- The nested document holding one sensitive entry with local key `s`
under volume key `v` and layer key `l`. -/
def singleSensitiveDoc (v l s : ℕ) (entry : Json) : Json :=
  .obj [(detkey, .obj [(volkey, .obj [(natToKey v, .obj [(laykey,
    .obj [(natToKey l, .obj [(senkey, .obj [(natToKey s, entry)])])])])])])]

/-- C3 (amended): decode keys a sensitive leaf entry by the `GeometryID`
composed from the enclosing volume id, the enclosing layer id and the
leaf's local index — not by reading the leaf's key verbatim as the full
id. -/
theorem geometry_id_reconstruction (v l s : ℕ) (entry : Json) (d : MaterialDesc)
    (hentry : jsonToSurfaceMaterial entry = .ok (some d)) :
    jsonToMaterialMaps (singleSensitiveDoc v l s entry) =
      .ok ([((⟨v, 0, l, 0, s⟩ : GeometryID), d)], []) := by
  have h1 : collectKeyed (fun s' => (⟨v, 0, l, 0, s'⟩ : GeometryID))
      [(natToKey s, entry)] = .ok [((⟨v, 0, l, 0, s⟩ : GeometryID), d)] := by
    simp only [collectKeyed, keyToNat_natToKey, hentry]
  have h2 : collectLayer v l (.obj [(senkey, .obj [(natToKey s, entry)])]) =
      .ok [((⟨v, 0, l, 0, s⟩ : GeometryID), d)] := by
    rw [collectLayer]
    rw [show readSection appkey (fun a => (⟨v, 0, l, a, 0⟩ : GeometryID))
        [(senkey, .obj [(natToKey s, entry)])] = .ok [] from by
      rw [readSection, jlookup_single_ne (by decide) _]]
    rw [show readOptEntry repkey ⟨v, 0, l, 0, 0⟩
        [(senkey, .obj [(natToKey s, entry)])] = .ok [] from by
      rw [readOptEntry, jlookup_single_ne (by decide) _]]
    rw [show readSection senkey (fun s' => (⟨v, 0, l, 0, s'⟩ : GeometryID))
        [(senkey, .obj [(natToKey s, entry)])] =
        .ok [((⟨v, 0, l, 0, s⟩ : GeometryID), d)] from by
      rw [readSection, jlookup_cons_eq]
      exact h1]
    rfl
  have h3 : collectVolume v (.obj [(laykey,
      .obj [(natToKey l, .obj [(senkey, .obj [(natToKey s, entry)])])])]) =
      .ok ([((⟨v, 0, l, 0, s⟩ : GeometryID), d)], []) := by
    rw [collectVolume]
    rw [show readSection boukey (fun b => (⟨v, b, 0, 0, 0⟩ : GeometryID))
        [(laykey, .obj [(natToKey l, .obj [(senkey,
          .obj [(natToKey s, entry)])])])] = .ok [] from by
      rw [readSection, jlookup_single_ne (by decide) _]]
    rw [show readOptEntry matkey ⟨v, 0, 0, 0, 0⟩
        [(laykey, .obj [(natToKey l, .obj [(senkey,
          .obj [(natToKey s, entry)])])])] = .ok [] from by
      rw [readOptEntry, jlookup_single_ne (by decide) _]]
    rw [show readLayersSection v
        [(laykey, .obj [(natToKey l, .obj [(senkey,
          .obj [(natToKey s, entry)])])])] =
        .ok [((⟨v, 0, l, 0, s⟩ : GeometryID), d)] from by
      rw [readLayersSection, jlookup_cons_eq]
      show collectLayers v
        [(natToKey l, .obj [(senkey, .obj [(natToKey s, entry)])])] = _
      simp only [collectLayers, keyToNat_natToKey, h2]
      rfl]
    rfl
  have hcol : collectMaps (singleSensitiveDoc v l s entry) =
      .ok ([((⟨v, 0, l, 0, s⟩ : GeometryID), d)], []) := by
    rw [show collectMaps (singleSensitiveDoc v l s entry) =
      collectVolumes [(natToKey v, .obj [(laykey,
        .obj [(natToKey l, .obj [(senkey,
          .obj [(natToKey s, entry)])])])])] from rfl]
    simp only [collectVolumes, keyToNat_natToKey, h3]
    rfl
  rw [jsonToMaterialMaps_collect _ hcol,
    insertAllChecked_ok [((⟨v, 0, l, 0, s⟩ : GeometryID), d)] [] (by simp),
    insertAllChecked_ok [] [] (by simp)]
  rfl

/-- Witness for C3 at the concrete inputs of the spec scenario's shape. -/
theorem geometry_id_reconstruction_witness :
    jsonToMaterialMaps (singleSensitiveDoc 1 2 16 protoEntry) =
      .ok ([((⟨1, 0, 2, 0, 16⟩ : GeometryID), .proto)], []) :=
  geometry_id_reconstruction 1 2 16 protoEntry .proto rfl

/-- The spec scenario's cell `(1.0, 9.37, 46.0, 28.09, 14, 2.33)`. -/
def scenCell : MaterialCell := ⟨1, 9.37, 46, 28.09, 14, 2.33⟩

/-- The spec scenario's sensitive entry: `type = "data"`, one equidistant
bin on axis 0 spanning [0, 1], one row holding one cell. -/
def scenEntry : Json := dataPayload (some (.equidistant 1 0 1)) none [[scenCell]]

/-- Counterexample to C3's concrete scenario: with volume id 1 and layer
id 2, the sensitive key "16" decodes to the composed id (volume 1, layer
2, sensitive 16), whose packed value is not `0x10`. -/
theorem geometry_id_scenario_counterexample :
    jsonToMaterialMaps (singleSensitiveDoc 1 2 16 scenEntry) =
      .ok ([((⟨1, 0, 2, 0, 16⟩ : GeometryID), .homogeneous scenCell)], []) ∧
    GeometryID.value ⟨1, 0, 2, 0, 16⟩ ≠ 0x10 := by
  constructor
  · rfl
  · decide

end Acts
